import Mathlib

/-!
Verification of the group-level free-space accounting and block-bitmap
lifecycle subsystem of fs/ext4/balloc.c (Linux 4.9).

The C code is shallowly embedded: the superblock / sb_info / on-disk
superblock conglomerate becomes the structure `SB`, a group descriptor
becomes `GroupDesc`, the per-group runtime info (`struct ext4_group_info`)
becomes `GroupInfo`, the global percpu counters become `PCounter` values
inside `FsState`, and a block-bitmap buffer head becomes `Buffer`.
Machine integers are modelled as `Nat`/`Int`; C unsigned subtraction on
in-range values is `Nat` truncated subtraction.
-/

set_option autoImplicit false

namespace Balloc

/-- Error codes returned by the embedded functions (negated errnos in C). -/
inductive Err where
  | EFSBADCRC
  | EFSCORRUPTED
  | EIO
  | ENOSPC
  deriving DecidableEq, Repr

/-- The immutable mount-time geometry and feature flags: the fields of
`struct super_block`, `struct ext4_sb_info` and `struct ext4_super_block`
that balloc.c reads. -/
structure SB where
  first_data_block : Nat
  blocks_per_group : Nat
  clusters_per_group : Nat
  cluster_bits : Nat
  blocksize : Nat
  blocksize_bits : Nat
  blocks_count : Nat
  r_blocks_count : Nat
  groups_count : Nat
  desc_per_block : Nat
  gdb_count : Nat
  reserved_gdt_blocks : Nat
  itb_per_group : Nat
  resv_clusters : Int
  freeclusters_watermark : Int
  backup_bg0 : Nat
  backup_bg1 : Nat
  first_meta_bg : Nat
  feature_sparse_super : Bool
  feature_sparse_super2 : Bool
  feature_meta_bg : Bool
  feature_flex_bg : Bool
  opt_std_group_size : Bool
  has_journal : Bool
  mb_free_pending : Bool
  deriving Repr

/-- One group descriptor (`struct ext4_group_desc`), plus the outcome of
`ext4_group_desc_csum_verify` carried as the field `csum_ok` (the checksum
routine itself lives outside the excerpt), and the stored block-bitmap
checksum `bb_csum` (`bg_block_bitmap_csum_lo/hi`). -/
structure GroupDesc where
  block_bitmap : Nat
  inode_bitmap : Nat
  inode_table : Nat
  free_clusters : Nat
  free_inodes : Nat
  block_uninit : Bool
  csum_ok : Bool
  bb_csum : Nat
  deriving Repr, DecidableEq

/-- Per-group runtime state (`struct ext4_group_info`): the cached free
count `bb_free` and the two corruption bits of `bb_state`. -/
structure GroupInfo where
  bb_free : Nat
  bbitmap_corrupt : Bool
  ibitmap_corrupt : Bool
  deriving Repr, DecidableEq

/-- Modelled from the spec: a sharded (per-cpu) counter is read either
approximately (`percpu_counter_read_positive`, the cached global part) or
exactly (`percpu_counter_sum_positive`, the full cross-shard sum).  We keep
both observable values; a subtraction updates both. -/
structure PCounter where
  read : Int
  sum : Int
  deriving Repr, DecidableEq

def percpu_counter_read_positive (c : PCounter) : Int := max c.read 0

def percpu_counter_sum_positive (c : PCounter) : Int := max c.sum 0

def PCounter.sub (c : PCounter) (n : Int) : PCounter :=
  { read := c.read - n, sum := c.sum - n }

/-- The mutable mount-lifetime state balloc.c touches: the global free /
dirty cluster and free inode counters, whether the per-group info table is
loaded (`EXT4_SB(sb)->s_group_info`), and the per-group runtime records. -/
structure FsState where
  freeclusters : PCounter
  dirtyclusters : PCounter
  freeinodes : PCounter
  group_info_loaded : Bool
  groups : Nat → GroupInfo

/-- `set_bit(EXT4_GROUP_INFO_BBITMAP_CORRUPT_BIT, &grp->bb_state)`. -/
def FsState.setBBCorrupt (st : FsState) (g : Nat) : FsState :=
  { st with groups := fun i =>
      if i = g then { st.groups i with bbitmap_corrupt := true } else st.groups i }

/-- `set_bit(EXT4_GROUP_INFO_IBITMAP_CORRUPT_BIT, &grp->bb_state)`. -/
def FsState.setIBCorrupt (st : FsState) (g : Nat) : FsState :=
  { st with groups := fun i =>
      if i = g then { st.groups i with ibitmap_corrupt := true } else st.groups i }

/-- A block-bitmap buffer head: payload as one flag per bit (bit index 0 is
the group's first cluster, matching the little-endian packing), the byte
size `b_size`, and the `buffer_verified` flag. -/
structure Buffer where
  b_size : Nat
  data : List Bool
  verified : Bool

/-- The caller's ambient credentials, as tested by `ext4_has_free_clusters`:
`uid_eq(sbi->s_resuid, current_fsuid())`, the reserved-gid test
`!gid_eq(sbi->s_resgid, GLOBAL_ROOT_GID) && in_group_p(sbi->s_resgid)`,
and `capable(CAP_SYS_RESOURCE)`. -/
structure Caller where
  resuid_match : Bool
  resgid_in_group : Bool
  cap_sys_resource : Bool
  deriving Repr, DecidableEq

/-- The two flag bits of `ext4_mb_new_blocks` flags that balloc.c tests:
`EXT4_MB_USE_ROOT_BLOCKS` and `EXT4_MB_USE_RESERVED`. -/
structure MbFlags where
  use_root_blocks : Bool
  use_reserved : Bool
  deriving Repr, DecidableEq

/-- `flags == 0`. -/
def MbFlags.none : MbFlags := ⟨false, false⟩

/-! ## Geometry (Group Locator) -/

/-- `EXT4_B2C(sbi, blk)`: block-unit quantity to cluster units (round down). -/
def EXT4_B2C (sb : SB) (n : Nat) : Nat := n >>> sb.cluster_bits

/-- `EXT4_NUM_B2C(sbi, blks)`: block count to cluster count (round up). -/
def EXT4_NUM_B2C (sb : SB) (n : Nat) : Nat :=
  (n + (1 <<< sb.cluster_bits) - 1) >>> sb.cluster_bits

/-- `ext4_group_first_block_no(sb, group)`. -/
def ext4_group_first_block_no (sb : SB) (g : Nat) : Nat :=
  sb.first_data_block + g * sb.blocks_per_group

/-- `ext4_get_group_no_and_offset`: group index and in-group cluster offset
of a block (the `do_div` path). -/
def ext4_get_group_no_and_offset (sb : SB) (blocknr : Nat) : Nat × Nat :=
  let b := blocknr - sb.first_data_block
  (b / sb.blocks_per_group, (b % sb.blocks_per_group) >>> sb.cluster_bits)

/-- `ext4_get_group_number`: the shift fast path under `STD_GROUP_SIZE`,
otherwise via `ext4_get_group_no_and_offset`. -/
def ext4_get_group_number (sb : SB) (block : Nat) : Nat :=
  if sb.opt_std_group_size then
    (block - sb.first_data_block) >>> (sb.blocksize_bits + sb.cluster_bits + 3)
  else
    (ext4_get_group_no_and_offset sb block).1

/-- `ext4_block_in_group(sb, block, block_group)`. -/
def ext4_block_in_group (sb : SB) (block g : Nat) : Bool :=
  ext4_get_group_number sb block == g

/-! ## Sparse superblock placement and descriptor-block counts -/

/-- The loop body of `test_root`, driven by an explicit fuel counter so the
recursion is structural; `a` strictly decreases per iteration for the
divisors 3, 5, 7 the callers pass, so `a + 1` units of fuel are enough. -/
def testRootGo : Nat → Nat → Nat → Bool
  | 0, _, _ => false
  | fuel + 1, a, b =>
    if a < b then false
    else if a = b then true
    else if a % b ≠ 0 then false
    else testRootGo fuel (a / b) b

/-- `test_root(a, b)`: repeated integer division; true exactly when `a` is
a positive power of `b` (for `b ≥ 2`). -/
def test_root (a b : Nat) : Bool := testRootGo (a + 1) a b

/-- `ext4_bg_has_super(sb, group)`: 1 iff the group holds a (primary or
backup) superblock copy. -/
def ext4_bg_has_super (sb : SB) (group : Nat) : Nat :=
  if group = 0 then 1
  else if sb.feature_sparse_super2 then
    (if group = sb.backup_bg0 ∨ group = sb.backup_bg1 then 1 else 0)
  else if group ≤ 1 ∨ ¬sb.feature_sparse_super then 1
  else if group % 2 = 0 then 0
  else if test_root group 3 ∨ test_root group 5 ∨ test_root group 7 then 1
  else 0

/-- `ext4_bg_num_gdb_meta(sb, group)`. -/
def ext4_bg_num_gdb_meta (sb : SB) (group : Nat) : Nat :=
  let metagroup := group / sb.desc_per_block
  let first := metagroup * sb.desc_per_block
  let last := first + sb.desc_per_block - 1
  if group = first ∨ group = first + 1 ∨ group = last then 1 else 0

/-- `ext4_bg_num_gdb_nometa(sb, group)`. -/
def ext4_bg_num_gdb_nometa (sb : SB) (group : Nat) : Nat :=
  if ext4_bg_has_super sb group = 0 then 0
  else if sb.feature_meta_bg then sb.first_meta_bg
  else sb.gdb_count

/-- `ext4_bg_num_gdb(sb, group)`: descriptor-table blocks in the group. -/
def ext4_bg_num_gdb (sb : SB) (group : Nat) : Nat :=
  if ¬sb.feature_meta_bg ∨ group / sb.desc_per_block < sb.first_meta_bg then
    ext4_bg_num_gdb_nometa sb group
  else
    ext4_bg_num_gdb_meta sb group

/-- `ext4_num_base_meta_clusters(sb, block_group)`: clusters at the start of
the group occupied by the superblock copy, descriptor table and reserved
gdt blocks. -/
def ext4_num_base_meta_clusters (sb : SB) (block_group : Nat) : Nat :=
  let num := ext4_bg_has_super sb block_group
  let num :=
    if ¬sb.feature_meta_bg ∨ block_group < sb.first_meta_bg * sb.desc_per_block then
      (if num ≠ 0 then num + ext4_bg_num_gdb sb block_group + sb.reserved_gdt_blocks
       else num)
    else
      num + ext4_bg_num_gdb sb block_group
  EXT4_NUM_B2C sb num

/-- `num_clusters_in_group(sb, block_group)`: per-group cluster count; the
last group is sized to the remainder of the total block count. -/
def num_clusters_in_group (sb : SB) (block_group : Nat) : Nat :=
  let blocks :=
    if block_group = sb.groups_count - 1 then
      sb.blocks_count - ext4_group_first_block_no sb block_group
    else
      sb.blocks_per_group
  EXT4_NUM_B2C sb blocks

/-! ## Overhead calculation (`ext4_num_overhead_clusters`) -/

/-- Loop body of the inode-table loop of `ext4_num_overhead_clusters`: the
running `(num_clusters, itbl_cluster)` pair is updated by the cluster `c`
of one in-group inode-table block; `block_cluster` and `inode_cluster` are
the pending sentinels from the two bitmap phases. -/
def overheadItblStep (bc ic : Int) (s : Nat × Int) (c : Nat) : Nat × Int :=
  if c < s.1 ∨ (c : Int) = ic ∨ (c : Int) = bc ∨ (c : Int) = s.2 then s
  else if c = s.1 then (s.1 + 1, s.2)
  else (s.1 + 1, (c : Int))

/-- One bitmap phase of `ext4_num_overhead_clusters`: given the running
count, whether the bitmap block lies in the group and its cluster `c`,
either leave the count (cluster already inside the counted run), extend
the run when `c` lands exactly on its end, or keep `c` pending in the
`-1`-sentinel slot (`block_cluster` / `inode_cluster` in the C code). -/
def overheadBitmapPhase (num : Nat) (inb : Bool) (c : Nat) : Nat × Int :=
  if inb then
    (if c < num then (num, (-1 : Int))
     else if c = num then (num + 1, (-1 : Int))
     else (num, (c : Int)))
  else (num, (-1 : Int))

/-- `ext4_num_overhead_clusters(sb, block_group, gdp)`: base metadata
clusters plus the clusters of the block bitmap, inode bitmap and inode
table when they fall in the group, merged into the base run or counted
separately via the `-1` sentinels, exactly as the C code does. -/
def ext4_num_overhead_clusters (sb : SB) (block_group : Nat) (gdp : GroupDesc) : Nat :=
  let start := ext4_group_first_block_no sb block_group
  let num0 := ext4_num_base_meta_clusters sb block_group
  let p1 := overheadBitmapPhase num0
      (ext4_block_in_group sb gdp.block_bitmap block_group)
      (EXT4_B2C sb (gdp.block_bitmap - start))
  let p2 := overheadBitmapPhase p1.1
      (ext4_block_in_group sb gdp.inode_bitmap block_group)
      (EXT4_B2C sb (gdp.inode_bitmap - start))
  let itbl := gdp.inode_table
  let p3 := (List.range sb.itb_per_group).foldl
    (fun s i =>
      if ext4_block_in_group sb (itbl + i) block_group then
        overheadItblStep p1.2 p2.2 s (EXT4_B2C sb (itbl + i - start))
      else s)
    (p2.1, (-1 : Int))
  p3.1 + (if p1.2 ≠ -1 then 1 else 0) + (if p2.2 ≠ -1 then 1 else 0)

/-- `ext4_free_clusters_after_init(sb, block_group, gdp)`. -/
def ext4_free_clusters_after_init (sb : SB) (block_group : Nat) (gdp : GroupDesc) : Nat :=
  num_clusters_in_group sb block_group - ext4_num_overhead_clusters sb block_group gdp

/-! ## Bitmap bit operations -/

/-- `ext4_set_bit(bit, data)` (out-of-range writes, undefined behaviour in
C, are no-ops here). -/
def ext4_set_bit (n : Nat) (d : List Bool) : List Bool := d.set n true

/-- `ext4_test_bit(bit, data)`. -/
def ext4_test_bit (n : Nat) (d : List Bool) : Bool := d.getD n false

/-- `ext4_find_next_zero_bit(data, maxbit, startbit)`: index of the first
zero bit in `[startbit, maxbit)`, or `maxbit` if there is none. -/
def ext4_find_next_zero_bit (d : List Bool) (maxb strt : Nat) : Nat :=
  ((List.range' strt (maxb - strt)).find? (fun i => !ext4_test_bit i d)).getD maxb

/-- Modelled from the spec: `ext4_mark_bitmap_end(num, maxbits, data)` is
outside the excerpt; per the spec it sets every bit from `num` up to the
bitmap's full bit capacity `maxbits`. -/
def ext4_mark_bitmap_end (n maxb : Nat) (d : List Bool) : List Bool :=
  (List.range' n (maxb - n)).foldl (fun acc i => ext4_set_bit i acc) d

/-- Modelled from the spec: the block-bitmap checksum routine is outside the
excerpt; the spec says the stored checksum covers exactly the first
clusters-per-group / 8 bytes of the bitmap.  We fold that prefix into a
number, which is injective on it, hence a perfect checksum. -/
def ext4_block_bitmap_csum (sb : SB) (d : List Bool) : Nat :=
  (d.take (sb.clusters_per_group / 8 * 8)).foldl
    (fun acc b => 2 * acc + (if b then 1 else 0)) 0

/-- Modelled from the spec: `ext4_block_bitmap_csum_set` stores the computed
checksum of the buffer in the group descriptor. -/
def ext4_block_bitmap_csum_set (sb : SB) (gdp : GroupDesc) (bh : Buffer) : GroupDesc :=
  { gdp with bb_csum := ext4_block_bitmap_csum sb bh.data }

/-- Modelled from the spec: `ext4_block_bitmap_csum_verify` recomputes the
checksum of the buffer and compares it with the stored one. -/
def ext4_block_bitmap_csum_verify (sb : SB) (gdp : GroupDesc) (bh : Buffer) : Bool :=
  gdp.bb_csum == ext4_block_bitmap_csum sb bh.data

/-- Modelled from the spec: `ext4_group_desc_csum_set` recomputes the
descriptor checksum, after which the descriptor verifies again. -/
def ext4_group_desc_csum_set (gdp : GroupDesc) : GroupDesc :=
  { gdp with csum_ok := true }

/-! ## Bitmap synthesis (`ext4_init_block_bitmap`) -/

/-- The bit-setting sequence of the success path of
`ext4_init_block_bitmap`, applied to the already-zeroed buffer payload
`data0`: set the base-metadata run, then the block-bitmap's, the
inode-bitmap's and each inode-table block's cluster (each unconditionally
without flex_bg, else only when the block lies in the group), then mark
the tail from `num_clusters_in_group` to the bitmap's full bit capacity. -/
def ext4_init_block_bitmap_data (sb : SB) (block_group : Nat) (gdp : GroupDesc)
    (data0 : List Bool) : List Bool :=
  let start := ext4_group_first_block_no sb block_group
  let flex_bg := sb.feature_flex_bg
  let d1 := (List.range (ext4_num_base_meta_clusters sb block_group)).foldl
      (fun d b => ext4_set_bit b d) data0
  let d2 := if ¬flex_bg ∨ ext4_block_in_group sb gdp.block_bitmap block_group
    then ext4_set_bit (EXT4_B2C sb (gdp.block_bitmap - start)) d1 else d1
  let d3 := if ¬flex_bg ∨ ext4_block_in_group sb gdp.inode_bitmap block_group
    then ext4_set_bit (EXT4_B2C sb (gdp.inode_bitmap - start)) d2 else d2
  let d4 := (List.range sb.itb_per_group).foldl
    (fun d i =>
      if ¬flex_bg ∨ ext4_block_in_group sb (gdp.inode_table + i) block_group
      then ext4_set_bit (EXT4_B2C sb (gdp.inode_table + i - start)) d else d)
    d3
  ext4_mark_bitmap_end (num_clusters_in_group sb block_group) (sb.blocksize * 8) d4

/-- `ext4_init_block_bitmap(sb, bh, block_group, gdp)`: the whole function
as a transformer of the buffer, the descriptor and the global state.  The
descriptor-checksum failure path quarantines both bitmaps of the group and
debits both global counters (each at most once); the success path zeroes
the buffer, sets the bits of `ext4_init_block_bitmap_data`, then stores
the two checksums. -/
def ext4_init_block_bitmap (sb : SB) (bh : Buffer) (block_group : Nat)
    (gdp : GroupDesc) (st : FsState) :
    Except Err Unit × Buffer × GroupDesc × FsState :=
  if ¬gdp.csum_ok then
    let grp := st.groups block_group
    let st1 := if ¬grp.bbitmap_corrupt then
        { st with freeclusters := st.freeclusters.sub grp.bb_free } else st
    let st2 := st1.setBBCorrupt block_group
    let st3 := if ¬grp.ibitmap_corrupt then
        { st2 with freeinodes := st2.freeinodes.sub gdp.free_inodes } else st2
    let st4 := st3.setIBCorrupt block_group
    (.error .EFSBADCRC, bh, gdp, st4)
  else
    let data0 := List.replicate (sb.blocksize * 8) false
                   ++ bh.data.drop (sb.blocksize * 8)
    let bit_max := ext4_num_base_meta_clusters sb block_group
    if bit_max >>> 3 ≥ bh.b_size then
      (.error .EFSCORRUPTED, { bh with data := data0 }, gdp, st)
    else
      let bh1 := { bh with data := ext4_init_block_bitmap_data sb block_group gdp data0 }
      let gdp1 := ext4_block_bitmap_csum_set sb gdp bh1
      let gdp2 := ext4_group_desc_csum_set gdp1
      (.ok (), bh1, gdp2, st)

/-- The sequence of bit indices `ext4_init_block_bitmap` hands to
`ext4_set_bit` on its success path (its write trace, in program order):
the base-metadata run, the block-bitmap, inode-bitmap and in-group
inode-table clusters, and the marked tail.  The C code performs these
writes without any bound check against the buffer size. -/
def ext4_init_block_bitmap_bit_trace (sb : SB) (block_group : Nat)
    (gdp : GroupDesc) : List Nat :=
  let start := ext4_group_first_block_no sb block_group
  let flex_bg := sb.feature_flex_bg
  List.range (ext4_num_base_meta_clusters sb block_group)
  ++ (if ¬flex_bg ∨ ext4_block_in_group sb gdp.block_bitmap block_group
      then [EXT4_B2C sb (gdp.block_bitmap - start)] else [])
  ++ (if ¬flex_bg ∨ ext4_block_in_group sb gdp.inode_bitmap block_group
      then [EXT4_B2C sb (gdp.inode_bitmap - start)] else [])
  ++ (List.range sb.itb_per_group).filterMap
      (fun i =>
        if ¬flex_bg ∨ ext4_block_in_group sb (gdp.inode_table + i) block_group
        then some (EXT4_B2C sb (gdp.inode_table + i - start)) else none)
  ++ List.range' (num_clusters_in_group sb block_group)
      (sb.blocksize * 8 - num_clusters_in_group sb block_group)

/-! ## Bitmap validation -/

/-- `ext4_valid_block_bitmap(sb, desc, block_group, bh)`: 0 when the layout
check passes (or is skipped under flex_bg), otherwise the offending block
number. -/
def ext4_valid_block_bitmap (sb : SB) (desc : GroupDesc) (block_group : Nat)
    (bh : Buffer) : Nat :=
  if sb.feature_flex_bg then 0
  else
    let group_first_block := ext4_group_first_block_no sb block_group
    let blk1 := desc.block_bitmap
    if ¬ext4_test_bit (EXT4_B2C sb (blk1 - group_first_block)) bh.data then blk1
    else
      let blk2 := desc.inode_bitmap
      if ¬ext4_test_bit (EXT4_B2C sb (blk2 - group_first_block)) bh.data then blk2
      else
        let blk3 := desc.inode_table
        let offset := blk3 - group_first_block
        let next_zero_bit := ext4_find_next_zero_bit bh.data
          (EXT4_B2C sb (offset + sb.itb_per_group)) (EXT4_B2C sb offset)
        if next_zero_bit < EXT4_B2C sb (offset + sb.itb_per_group) then blk3
        else 0

/-- `ext4_validate_block_bitmap(sb, desc, block_group, bh)`: no-op once the
buffer is verified; sticky-corrupt groups fail immediately; a checksum or
layout failure debits the group's believed free count from the global
counter (once) and marks the group corrupt; success sets the verified
flag. -/
def ext4_validate_block_bitmap (sb : SB) (desc : GroupDesc) (block_group : Nat)
    (bh : Buffer) (st : FsState) : Except Err Unit × FsState × Buffer :=
  if bh.verified then (.ok (), st, bh)
  else if (st.groups block_group).bbitmap_corrupt then (.error .EFSCORRUPTED, st, bh)
  else if ¬ext4_block_bitmap_csum_verify sb desc bh then
    let st1 := if ¬(st.groups block_group).bbitmap_corrupt then
        { st with freeclusters := st.freeclusters.sub (st.groups block_group).bb_free }
      else st
    (.error .EFSBADCRC, st1.setBBCorrupt block_group, bh)
  else
    let blk := ext4_valid_block_bitmap sb desc block_group bh
    if blk ≠ 0 then
      let st1 := if ¬(st.groups block_group).bbitmap_corrupt then
          { st with freeclusters := st.freeclusters.sub (st.groups block_group).bb_free }
        else st
      (.error .EFSCORRUPTED, st1.setBBCorrupt block_group, bh)
    else
      (.ok (), st, { bh with verified := true })

/-! ## Free-cluster counting and the accountant -/

/-- The contribution of one group to `ext4_count_free_clusters`: its
descriptor's free count, unless the descriptor is unavailable or the group
is marked block-bitmap-corrupt. -/
def countFreeTerm (st : FsState) (descs : Nat → Option GroupDesc) (i : Nat) : Nat :=
  match descs i with
  | none => 0
  | some gdp =>
    if ¬st.group_info_loaded ∨ ¬(st.groups i).bbitmap_corrupt then gdp.free_clusters
    else 0

/-- `ext4_count_free_clusters(sb)` (the non-debug path): adds up the
descriptor free counts of all non-corrupt groups. -/
def ext4_count_free_clusters (sb : SB) (descs : Nat → Option GroupDesc)
    (st : FsState) : Nat :=
  ((List.range sb.groups_count).map (countFreeTerm st descs)).sum

/-- `ext4_has_free_clusters(sbi, nclusters, flags)`: the capacity decision
ladder, with the exact cross-shard re-read near the watermark. -/
def ext4_has_free_clusters (sb : SB) (st : FsState) (caller : Caller)
    (nclusters : Int) (flags : MbFlags) : Nat :=
  let free_clusters := percpu_counter_read_positive st.freeclusters
  let dirty_clusters := percpu_counter_read_positive st.dirtyclusters
  let resv_clusters := sb.resv_clusters
  let rsv := ((sb.r_blocks_count >>> sb.cluster_bits : Nat) : Int) + resv_clusters
  let p :=
    if free_clusters - (nclusters + rsv + dirty_clusters) < sb.freeclusters_watermark
    then (percpu_counter_sum_positive st.freeclusters,
          percpu_counter_sum_positive st.dirtyclusters)
    else (free_clusters, dirty_clusters)
  let free_clusters := p.1
  let dirty_clusters := p.2
  if free_clusters ≥ rsv + nclusters + dirty_clusters then 1
  else if (caller.resuid_match ∨ caller.resgid_in_group ∨ caller.cap_sys_resource
           ∨ flags.use_root_blocks)
          ∧ free_clusters ≥ nclusters + dirty_clusters + resv_clusters then 1
  else if flags.use_reserved ∧ free_clusters ≥ nclusters + dirty_clusters then 1
  else 0

/-- `ext4_claim_free_clusters(sbi, nclusters, flags)`: reserves by adding to
the dirty counter on success, `-ENOSPC` without mutation on failure. -/
def ext4_claim_free_clusters (sb : SB) (st : FsState) (caller : Caller)
    (nclusters : Int) (flags : MbFlags) : Except Err Unit × FsState :=
  if ext4_has_free_clusters sb st caller nclusters flags ≠ 0 then
    (.ok (), { st with dirtyclusters :=
        ⟨st.dirtyclusters.read + nclusters, st.dirtyclusters.sum + nclusters⟩ })
  else
    (.error .ENOSPC, st)

/-- `ext4_should_retry_alloc(sb, &retries)`: the returned pair is the C
return value and the post-call value of `*retries` (the post-increment
happens only when the capacity test is reached and passes). -/
def ext4_should_retry_alloc (sb : SB) (st : FsState) (caller : Caller)
    (retries : Nat) : Bool × Nat :=
  if ext4_has_free_clusters sb st caller 1 MbFlags.none = 0 then (false, retries)
  else if retries > 3 then (false, retries + 1)
  else if ¬sb.has_journal then (false, retries + 1)
  else (true, retries + 1)

/-- Proof bookkeeping for the inode-table loop of
`ext4_num_overhead_clusters`: `S` is the set of distinct clusters the
running count `s.1` stands for; every member is below the group's cluster
count `B`, lies below the count or at/below the last separately-counted
cluster `s.2`, and differs from the two pending bitmap clusters `bc`,
`ic`. -/
def OvhInv (B : Nat) (bc ic : Int) (s : Nat × Int) (S : Finset Nat) : Prop :=
  s.1 = S.card
  ∧ (∀ x ∈ S, x < B)
  ∧ (∀ x ∈ S, x < s.1 ∨ (x : Int) ≤ s.2)
  ∧ (∀ x ∈ S, (x : Int) ≠ bc ∧ (x : Int) ≠ ic)

/-! ## Concrete filesystem instances used as test vectors -/

/-- A small 4-group filesystem with 2-block clusters (12 blocks, i.e. 6
clusters, per group), sparse_super on, everything else off. -/
def sbT : SB := {
  first_data_block := 0, blocks_per_group := 12, clusters_per_group := 6,
  cluster_bits := 1, blocksize := 2, blocksize_bits := 1,
  blocks_count := 48, r_blocks_count := 0, groups_count := 4,
  desc_per_block := 4, gdb_count := 1, reserved_gdt_blocks := 0,
  itb_per_group := 12, resv_clusters := 0, freeclusters_watermark := 4,
  backup_bg0 := 0, backup_bg1 := 0, first_meta_bg := 0,
  feature_sparse_super := true, feature_sparse_super2 := false,
  feature_meta_bg := false, feature_flex_bg := false,
  opt_std_group_size := false, has_journal := true, mb_free_pending := false }

/-- A descriptor for group 2 of `sbT` whose block bitmap (block 34) and
inode bitmap (block 35) share cluster 5, and whose inode table covers the
whole group. -/
def gdpT : GroupDesc := {
  block_bitmap := 34, inode_bitmap := 35, inode_table := 24,
  free_clusters := 0, free_inodes := 0, block_uninit := true,
  csum_ok := true, bb_csum := 0 }

/-- `sbT` with 64 groups, for the sparse-super backup enumeration. -/
def sb64 : SB := { sbT with groups_count := 64 }

/-- meta_bg filesystem with first_meta_bg = 1 and 2 descriptors per block;
group 3 is meta_bg-governed and holds a superblock backup. -/
def sbC4 : SB := { sbT with
  feature_meta_bg := true, first_meta_bg := 1, desc_per_block := 2,
  cluster_bits := 0 }

/-- meta_bg filesystem with first_meta_bg = 1 and 4 descriptors per block;
group 4 is meta_bg-governed, first of its meta-group, and holds no
superblock backup. -/
def sbC5 : SB := { sbT with
  feature_meta_bg := true, first_meta_bg := 1, desc_per_block := 4 }

/-- A one-group filesystem of 8 one-block clusters with a one-byte (8-bit)
block bitmap. -/
def sb3 : SB := { sbT with
  cluster_bits := 0, blocksize := 1, blocks_per_group := 8,
  clusters_per_group := 8, blocks_count := 8, groups_count := 1,
  feature_sparse_super := false, gdb_count := 1, itb_per_group := 2 }

/-- A well-formed descriptor for the single group of `sb3`: bitmaps at
blocks 2 and 3, inode table at blocks 4 and 5. -/
def gdp3 : GroupDesc := { gdpT with
  block_bitmap := 2, inode_bitmap := 3, inode_table := 4 }

/-- A fresh all-zero one-byte bitmap buffer. -/
def bh3 : Buffer := { b_size := 1, data := List.replicate 8 false, verified := false }

/-- A zero-byte buffer, for the synthesis bound guard. -/
def bh0 : Buffer := { b_size := 0, data := [], verified := false }

/-- A healthy runtime state: 10 free clusters, 5 free inodes, no dirty
clusters, no corrupt groups, group info loaded. -/
def st3 : FsState := {
  freeclusters := ⟨10, 10⟩, dirtyclusters := ⟨0, 0⟩, freeinodes := ⟨5, 5⟩,
  group_info_loaded := true, groups := fun _ => ⟨6, false, false⟩ }

/-- `sb3` with flex_bg on (layout validation skipped). -/
def sb2 : SB := { sb3 with feature_flex_bg := true }

/-- A descriptor whose stored block-bitmap checksum does not match the
all-zero buffer. -/
def gdp2 : GroupDesc := { gdp3 with bb_csum := 999 }

/-- A descriptor that fails its own checksum. -/
def gdp9 : GroupDesc := { gdp3 with csum_ok := false }

/-- A descriptor whose block bitmap lies far outside the 8-bit bitmap of
`sb3`. -/
def gdp10 : GroupDesc := { gdp3 with block_bitmap := 100 }

/-- An unprivileged caller. -/
def callerNone : Caller := ⟨false, false, false⟩

/-! ## Basic lemmas -/

theorem ext4_bg_has_super_le_one (sb : SB) (g : Nat) : ext4_bg_has_super sb g ≤ 1 := by
  unfold ext4_bg_has_super
  split_ifs <;> omega

theorem EXT4_NUM_B2C_zero (sb : SB) : EXT4_NUM_B2C sb 0 = 0 := by
  unfold EXT4_NUM_B2C
  rw [Nat.shiftLeft_eq, Nat.shiftRight_eq_div_pow]
  have h : 0 < 2 ^ sb.cluster_bits := Nat.pos_pow_of_pos _ (by omega)
  rw [Nat.zero_add, Nat.one_mul]
  exact Nat.div_eq_of_lt (by omega)

theorem testRootGo_iff (b : Nat) (hb : 2 ≤ b) :
    ∀ f a, a < f → (testRootGo f a b = true ↔ ∃ k, 1 ≤ k ∧ a = b ^ k) := by
  intro f
  induction f with
  | zero => intro a ha; omega
  | succ f ih =>
    intro a ha
    rw [testRootGo]
    split_ifs with h1 h2 h3
    · simp only [Bool.false_eq_true, false_iff]
      rintro ⟨k, hk, rfl⟩
      have hle : b ≤ b ^ k := Nat.le_self_pow (by omega) b
      omega
    · exact iff_of_true rfl ⟨1, le_refl 1, by rw [pow_one]; exact h2⟩
    · simp only [Bool.false_eq_true, false_iff]
      rintro ⟨k, hk, rfl⟩
      have hdvd : b ∣ b ^ k := dvd_pow_self b (by omega)
      exact h3 (Nat.mod_eq_zero_of_dvd hdvd)
    · have hbpos : 0 < b := by omega
      have hab : b < a := by omega
      have hdvd : b ∣ a := Nat.dvd_of_mod_eq_zero (by omega)
      have hlt : a / b < a := Nat.div_lt_self (by omega) hb
      rw [ih (a / b) (by omega)]
      constructor
      · rintro ⟨k, hk, hek⟩
        refine ⟨k + 1, by omega, ?_⟩
        rw [pow_succ, ← hek, Nat.div_mul_cancel hdvd]
      · rintro ⟨k, hk, rfl⟩
        have hk2 : 2 ≤ k := by
          by_contra hcon
          have hk1 : k = 1 := by omega
          subst hk1
          exact h2 (pow_one b)
        refine ⟨k - 1, by omega, ?_⟩
        have hpow : b ^ k = b ^ (k - 1) * b := by
          rw [← pow_succ]
          congr 1
          omega
        rw [hpow, Nat.mul_div_cancel _ hbpos]

theorem test_root_iff (a b : Nat) (hb : 2 ≤ b) :
    test_root a b = true ↔ ∃ k, 1 ≤ k ∧ a = b ^ k :=
  testRootGo_iff b hb (a + 1) a (Nat.lt_succ_self a)

theorem bg_has_super_sparse (sb : SB) (h1 : sb.feature_sparse_super = true)
    (h2 : sb.feature_sparse_super2 = false) (g : Nat) :
    ext4_bg_has_super sb g =
      if g ≤ 1 then 1
      else if g % 2 = 0 then 0
      else if test_root g 3 ∨ test_root g 5 ∨ test_root g 7 then 1 else 0 := by
  unfold ext4_bg_has_super
  simp only [h1, h2]
  split_ifs <;> simp_all

theorem pow_odd_mod_two (b k : Nat) (hb : b % 2 = 1) : b ^ k % 2 = 1 := by
  rw [Nat.pow_mod, hb, one_pow]
  rfl

/-- Claim C6: with sparse_super enabled and sparse_super2 disabled,
`ext4_bg_has_super` returns 1 exactly for groups 0 and 1 and for exact
positive integer powers of 3, 5 or 7 (decided by repeated division), and
on a 64-group filesystem the backup holders are exactly
0, 1, 3, 5, 7, 9, 25, 27 and 49. -/
theorem c6_sparse_super_powers (sb : SB) (h1 : sb.feature_sparse_super = true)
    (h2 : sb.feature_sparse_super2 = false) :
    (∀ g, ext4_bg_has_super sb g = 1 ↔
      (g = 0 ∨ g = 1 ∨ (∃ k, 1 ≤ k ∧ g = 3 ^ k) ∨ (∃ k, 1 ≤ k ∧ g = 5 ^ k)
        ∨ (∃ k, 1 ≤ k ∧ g = 7 ^ k)))
    ∧ (List.range 64).filter (fun g => ext4_bg_has_super sb64 g == 1)
        = [0, 1, 3, 5, 7, 9, 25, 27, 49] := by
  constructor
  · intro g
    rw [bg_has_super_sparse sb h1 h2 g]
    by_cases hg1 : g ≤ 1
    · rw [if_pos hg1]
      constructor
      · intro _
        interval_cases g
        · exact Or.inl rfl
        · exact Or.inr (Or.inl rfl)
      · intro _
        rfl
    · rw [if_neg hg1]
      by_cases he : g % 2 = 0
      · rw [if_pos he]
        constructor
        · intro h
          exact absurd h (by omega)
        · rintro (h | h | ⟨k, hk, rfl⟩ | ⟨k, hk, rfl⟩ | ⟨k, hk, rfl⟩)
          · omega
          · omega
          · have := pow_odd_mod_two 3 k (by omega)
            omega
          · have := pow_odd_mod_two 5 k (by omega)
            omega
          · have := pow_odd_mod_two 7 k (by omega)
            omega
      · rw [if_neg he]
        by_cases ht : test_root g 3 = true ∨ test_root g 5 = true ∨ test_root g 7 = true
        · rw [if_pos ht]
          refine iff_of_true rfl ?_
          rcases ht with h | h | h
          · exact Or.inr (Or.inr (Or.inl ((test_root_iff g 3 (by omega)).mp h)))
          · exact Or.inr (Or.inr (Or.inr (Or.inl ((test_root_iff g 5 (by omega)).mp h))))
          · exact Or.inr (Or.inr (Or.inr (Or.inr ((test_root_iff g 7 (by omega)).mp h))))
        · rw [if_neg ht]
          refine iff_of_false (by omega) ?_
          rintro (h | h | h | h | h)
          · omega
          · omega
          · exact ht (Or.inl ((test_root_iff g 3 (by omega)).mpr h))
          · exact ht (Or.inr (Or.inl ((test_root_iff g 5 (by omega)).mpr h)))
          · exact ht (Or.inr (Or.inr ((test_root_iff g 7 (by omega)).mpr h)))
  · decide

/-- Witness for C6, instantiated on the 64-group filesystem `sb64`. -/
theorem c6_sparse_super_powers_witness :
    (List.range 64).filter (fun g => ext4_bg_has_super sb64 g == 1)
      = [0, 1, 3, 5, 7, 9, 25, 27, 49] :=
  (c6_sparse_super_powers sb64 rfl rfl).2

/-- Counterexample to claim C4: on `sbC4`, group 3 is meta_bg-governed
(meta-group index 1, threshold 1) yet its base metadata count is 2, not
the claimed `descriptor_blocks_at(3)` alone rounded to clusters, which
would be 1 — the superblock copy is still counted under meta_bg. -/
theorem c4_base_meta_cex :
    sbC4.feature_meta_bg = true
    ∧ sbC4.first_meta_bg ≤ 3 / sbC4.desc_per_block
    ∧ ext4_bg_num_gdb sbC4 3 = 1
    ∧ EXT4_NUM_B2C sbC4 (ext4_bg_num_gdb sbC4 3) = 1
    ∧ ext4_num_base_meta_clusters sbC4 3 = 2
    ∧ ext4_num_base_meta_clusters sbC4 3
        ≠ EXT4_NUM_B2C sbC4 (ext4_bg_num_gdb sbC4 3) := by
  decide

/-- Claim C4, amended: for a meta_bg-governed group the base metadata
cluster count is the superblock-copy count plus its descriptor blocks,
rounded up to clusters (with no reserved-gdt contribution); for every
other group it is `1 + descriptor blocks + reserved gdt blocks` rounded up
when the group has a superblock copy and 0 otherwise. -/
theorem c4_base_meta_amended (sb : SB) (g : Nat) (hd : 0 < sb.desc_per_block) :
    (sb.feature_meta_bg = true → sb.first_meta_bg ≤ g / sb.desc_per_block →
      ext4_num_base_meta_clusters sb g
        = EXT4_NUM_B2C sb (ext4_bg_has_super sb g + ext4_bg_num_gdb sb g))
    ∧ ((sb.feature_meta_bg = false ∨ g / sb.desc_per_block < sb.first_meta_bg) →
      ext4_num_base_meta_clusters sb g
        = (if ext4_bg_has_super sb g = 0 then 0
           else EXT4_NUM_B2C sb (1 + ext4_bg_num_gdb sb g + sb.reserved_gdt_blocks))) := by
  have hs := ext4_bg_has_super_le_one sb g
  constructor
  · intro hm hge
    have hcond : ¬(¬sb.feature_meta_bg = true ∨ g < sb.first_meta_bg * sb.desc_per_block) := by
      push_neg
      exact ⟨hm, (Nat.le_div_iff_mul_le hd).mp hge⟩
    simp only [ext4_num_base_meta_clusters]
    rw [if_neg hcond]
  · intro h
    have hcond : (¬sb.feature_meta_bg = true ∨ g < sb.first_meta_bg * sb.desc_per_block) := by
      rcases h with h | h
      · exact Or.inl (by simp [h])
      · exact Or.inr ((Nat.div_lt_iff_lt_mul hd).mp h)
    simp only [ext4_num_base_meta_clusters]
    rw [if_pos hcond]
    by_cases h0 : ext4_bg_has_super sb g = 0
    · rw [if_pos h0, h0, if_neg (by omega), EXT4_NUM_B2C_zero]
    · rw [if_neg h0, if_pos (by omega)]
      have h1 : ext4_bg_has_super sb g = 1 := by omega
      rw [h1]

/-- Witness for the amended C4 on the meta_bg-governed group 3 of `sbC4`. -/
theorem c4_base_meta_amended_witness :
    ext4_num_base_meta_clusters sbC4 3
      = EXT4_NUM_B2C sbC4 (ext4_bg_has_super sbC4 3 + ext4_bg_num_gdb sbC4 3) :=
  (c4_base_meta_amended sbC4 3 (by decide)).1 rfl (by decide)

/-- Counterexample to claim C5: on `sbC5`, group 4 has no superblock copy
(`ext4_bg_has_super` is 0), yet being meta_bg-governed and first of its
meta-group its descriptor-block count is 1, not the claimed 0. -/
theorem c5_num_gdb_cex :
    sbC5.feature_meta_bg = true
    ∧ sbC5.first_meta_bg ≤ 4 / sbC5.desc_per_block
    ∧ ext4_bg_has_super sbC5 4 = 0
    ∧ ext4_bg_num_gdb sbC5 4 = 1 := by
  decide

/-- Claim C5, amended: when meta_bg is inactive or the group's meta-group
index is below the first-meta-bg threshold, the count is 0 without a
superblock copy, else the old-style descriptor-block count (the threshold
value when meta_bg is active, the filesystem-wide total otherwise); when
meta_bg governs the group, the count is 1 exactly for the first, second
and last group of its meta-group, regardless of superblock copies. -/
theorem c5_num_gdb_amended (sb : SB) (g : Nat) :
    ((sb.feature_meta_bg = false ∨ g / sb.desc_per_block < sb.first_meta_bg) →
      ext4_bg_num_gdb sb g
        = (if ext4_bg_has_super sb g = 0 then 0
           else if sb.feature_meta_bg then sb.first_meta_bg else sb.gdb_count))
    ∧ (sb.feature_meta_bg = true → sb.first_meta_bg ≤ g / sb.desc_per_block →
      ext4_bg_num_gdb sb g
        = (if g = g / sb.desc_per_block * sb.desc_per_block
             ∨ g = g / sb.desc_per_block * sb.desc_per_block + 1
             ∨ g = g / sb.desc_per_block * sb.desc_per_block + sb.desc_per_block - 1
           then 1 else 0)) := by
  constructor
  · intro h
    have hcond : (¬sb.feature_meta_bg = true ∨ g / sb.desc_per_block < sb.first_meta_bg) := by
      rcases h with h | h
      · exact Or.inl (by simp [h])
      · exact Or.inr h
    unfold ext4_bg_num_gdb
    rw [if_pos hcond]
    rfl
  · intro hm hge
    have hcond : ¬(¬sb.feature_meta_bg = true ∨ g / sb.desc_per_block < sb.first_meta_bg) := by
      push_neg
      exact ⟨hm, by omega⟩
    unfold ext4_bg_num_gdb
    rw [if_neg hcond]
    rfl

/-- Witness for the amended C5 on the meta_bg-governed group 4 of `sbC5`. -/
theorem c5_num_gdb_amended_witness :
    ext4_bg_num_gdb sbC5 4
      = (if 4 = 4 / sbC5.desc_per_block * sbC5.desc_per_block
           ∨ 4 = 4 / sbC5.desc_per_block * sbC5.desc_per_block + 1
           ∨ 4 = 4 / sbC5.desc_per_block * sbC5.desc_per_block + sbC5.desc_per_block - 1
         then 1 else 0) :=
  (c5_num_gdb_amended sbC5 4).2 rfl (by decide)

/-- Claim C8: `ext4_should_retry_alloc` returns false when there is no
capacity even for one cluster, when the attempt count exceeds the budget
of 3, or without a journal; otherwise it returns true and increments the
count, so starting from 0 the first four calls succeed and the call with
count 4 fails even though capacity exists. -/
theorem c8_should_retry_budget (sb : SB) (st : FsState) (caller : Caller)
    (retries : Nat) :
    (ext4_has_free_clusters sb st caller 1 MbFlags.none = 0 →
      ext4_should_retry_alloc sb st caller retries = (false, retries))
    ∧ (3 < retries → (ext4_should_retry_alloc sb st caller retries).1 = false)
    ∧ (sb.has_journal = false → (ext4_should_retry_alloc sb st caller retries).1 = false)
    ∧ (ext4_has_free_clusters sb st caller 1 MbFlags.none ≠ 0 → retries ≤ 3 →
        sb.has_journal = true →
        ext4_should_retry_alloc sb st caller retries = (true, retries + 1))
    ∧ (ext4_has_free_clusters sb st caller 1 MbFlags.none ≠ 0 → sb.has_journal = true →
        ((∀ k, k ≤ 3 → ext4_should_retry_alloc sb st caller k = (true, k + 1))
          ∧ (ext4_should_retry_alloc sb st caller 4).1 = false)) := by
  refine ⟨?_, ?_, ?_, ?_, ?_⟩
  · intro h
    unfold ext4_should_retry_alloc
    rw [if_pos h]
  · intro h
    unfold ext4_should_retry_alloc
    split_ifs <;> first | rfl | omega
  · intro h
    unfold ext4_should_retry_alloc
    split_ifs <;> simp_all
  · intro h1 h2 h3
    unfold ext4_should_retry_alloc
    rw [if_neg h1, if_neg (by omega), if_neg (by simp [h3])]
  · intro h1 h3
    constructor
    · intro k hk
      unfold ext4_should_retry_alloc
      rw [if_neg h1, if_neg (by omega), if_neg (by simp [h3])]
    · unfold ext4_should_retry_alloc
      rw [if_neg h1, if_pos (by omega)]

/-- Witness for C8 on `sb3`/`st3`, which has capacity and a journal: the
call with count 0 retries, the call with count 4 refuses. -/
theorem c8_should_retry_budget_witness :
    ext4_should_retry_alloc sb3 st3 callerNone 0 = (true, 1)
    ∧ (ext4_should_retry_alloc sb3 st3 callerNone 4).1 = false :=
  ⟨(c8_should_retry_budget sb3 st3 callerNone 0).2.2.2.1 (by decide) (by decide) rfl,
   ((c8_should_retry_budget sb3 st3 callerNone 0).2.2.2.2 (by decide) rfl).2⟩

/-- Claim C9: a descriptor-checksum failure during bitmap synthesis marks
both the block-bitmap and inode-bitmap of the group corrupt, debits the
group's believed free-cluster count from the global free-cluster counter
and — when the inode side was not already corrupt — the descriptor's
free-inode count from the global free-inode counter. -/
theorem c9_desc_csum_quarantines_inodes (sb : SB) (bh : Buffer) (g : Nat)
    (gdp : GroupDesc) (st : FsState) (h : gdp.csum_ok = false) :
    (ext4_init_block_bitmap sb bh g gdp st).1 = .error .EFSBADCRC
    ∧ ((ext4_init_block_bitmap sb bh g gdp st).2.2.2.groups g).bbitmap_corrupt = true
    ∧ ((ext4_init_block_bitmap sb bh g gdp st).2.2.2.groups g).ibitmap_corrupt = true
    ∧ (ext4_init_block_bitmap sb bh g gdp st).2.2.2.freeclusters
        = (if (st.groups g).bbitmap_corrupt then st.freeclusters
           else st.freeclusters.sub ((st.groups g).bb_free : Int))
    ∧ (ext4_init_block_bitmap sb bh g gdp st).2.2.2.freeinodes
        = (if (st.groups g).ibitmap_corrupt then st.freeinodes
           else st.freeinodes.sub (gdp.free_inodes : Int)) := by
  have hnot : ¬gdp.csum_ok = true := by simp [h]
  unfold ext4_init_block_bitmap
  rw [if_pos hnot]
  refine ⟨rfl, ?_, ?_, ?_, ?_⟩ <;>
    by_cases hbc : (st.groups g).bbitmap_corrupt <;>
    by_cases hic : (st.groups g).ibitmap_corrupt <;>
    simp [FsState.setBBCorrupt, FsState.setIBCorrupt, hbc, hic]

/-- Witness for C9 on the checksum-failing descriptor `gdp9`. -/
theorem c9_desc_csum_quarantines_inodes_witness :
    gdp9.csum_ok = false
    ∧ (ext4_init_block_bitmap sb3 bh3 0 gdp9 st3).1 = .error .EFSBADCRC
    ∧ ((ext4_init_block_bitmap sb3 bh3 0 gdp9 st3).2.2.2.groups 0).ibitmap_corrupt = true :=
  ⟨rfl, (c9_desc_csum_quarantines_inodes sb3 bh3 0 gdp9 st3 rfl).1,
   (c9_desc_csum_quarantines_inodes sb3 bh3 0 gdp9 st3 rfl).2.2.1⟩

/-- Claim C1: the capacity-check ladder of `ext4_has_free_clusters`, stated
for counters whose approximate and exact reads agree (the watermark re-read
is then the identity): an ordinary allocation succeeds iff
free ≥ want + dirty + root-reserve + reserved pool; a privileged caller
(reserved uid, reserved gid, CAP_SYS_RESOURCE or the use-root-blocks flag)
is allowed once free ≥ want + dirty + reserved pool; the use-reserved flag
allows once free ≥ want + dirty; every other case is denied. -/
theorem c1_has_free_clusters_ladder (sb : SB) (st : FsState) (caller : Caller)
    (nclusters : Int) (flags : MbFlags)
    (hf : st.freeclusters.read = st.freeclusters.sum)
    (hd : st.dirtyclusters.read = st.dirtyclusters.sum) :
    (ext4_has_free_clusters sb st caller nclusters flags = 1 ↔
      (((sb.r_blocks_count >>> sb.cluster_bits : Nat) : Int) + sb.resv_clusters
          + nclusters + percpu_counter_sum_positive st.dirtyclusters
          ≤ percpu_counter_sum_positive st.freeclusters
       ∨ ((caller.resuid_match ∨ caller.resgid_in_group ∨ caller.cap_sys_resource
             ∨ flags.use_root_blocks)
          ∧ nclusters + percpu_counter_sum_positive st.dirtyclusters + sb.resv_clusters
              ≤ percpu_counter_sum_positive st.freeclusters)
       ∨ (flags.use_reserved
          ∧ nclusters + percpu_counter_sum_positive st.dirtyclusters
              ≤ percpu_counter_sum_positive st.freeclusters)))
    ∧ (caller.resuid_match = false → caller.resgid_in_group = false →
       caller.cap_sys_resource = false → flags.use_root_blocks = false →
       flags.use_reserved = false →
      (ext4_has_free_clusters sb st caller nclusters flags = 1 ↔
        ((sb.r_blocks_count >>> sb.cluster_bits : Nat) : Int) + sb.resv_clusters
            + nclusters + percpu_counter_sum_positive st.dirtyclusters
            ≤ percpu_counter_sum_positive st.freeclusters))
    ∧ ((caller.resuid_match ∨ caller.resgid_in_group ∨ caller.cap_sys_resource
          ∨ flags.use_root_blocks) →
        nclusters + percpu_counter_sum_positive st.dirtyclusters + sb.resv_clusters
            ≤ percpu_counter_sum_positive st.freeclusters →
        ext4_has_free_clusters sb st caller nclusters flags = 1)
    ∧ (flags.use_reserved = true →
        nclusters + percpu_counter_sum_positive st.dirtyclusters
            ≤ percpu_counter_sum_positive st.freeclusters →
        ext4_has_free_clusters sb st caller nclusters flags = 1) := by
  have hread : percpu_counter_read_positive st.freeclusters
      = percpu_counter_sum_positive st.freeclusters := by
    unfold percpu_counter_read_positive percpu_counter_sum_positive
    rw [hf]
  have hread2 : percpu_counter_read_positive st.dirtyclusters
      = percpu_counter_sum_positive st.dirtyclusters := by
    unfold percpu_counter_read_positive percpu_counter_sum_positive
    rw [hd]
  have hmain : ext4_has_free_clusters sb st caller nclusters flags = 1 ↔
      (((sb.r_blocks_count >>> sb.cluster_bits : Nat) : Int) + sb.resv_clusters
          + nclusters + percpu_counter_sum_positive st.dirtyclusters
          ≤ percpu_counter_sum_positive st.freeclusters
       ∨ ((caller.resuid_match ∨ caller.resgid_in_group ∨ caller.cap_sys_resource
             ∨ flags.use_root_blocks)
          ∧ nclusters + percpu_counter_sum_positive st.dirtyclusters + sb.resv_clusters
              ≤ percpu_counter_sum_positive st.freeclusters)
       ∨ (flags.use_reserved
          ∧ nclusters + percpu_counter_sum_positive st.dirtyclusters
              ≤ percpu_counter_sum_positive st.freeclusters)) := by
    simp only [ext4_has_free_clusters, hread, hread2, ite_self]
    split_ifs with h1 h2 h3
    · exact iff_of_true rfl (Or.inl h1)
    · exact iff_of_true rfl (Or.inr (Or.inl ⟨h2.1, h2.2⟩))
    · exact iff_of_true rfl (Or.inr (Or.inr ⟨h3.1, h3.2⟩))
    · refine iff_of_false (by decide) ?_
      rintro (h | ⟨hp, hge⟩ | ⟨hr, hge⟩)
      · exact h1 h
      · exact h2 ⟨hp, hge⟩
      · exact h3 ⟨hr, hge⟩
  refine ⟨hmain, ?_, ?_, ?_⟩
  · intro hu1 hu2 hu3 hu4 hu5
    rw [hmain]
    simp [hu1, hu2, hu3, hu4, hu5]
  · intro hp hge
    rw [hmain]
    exact Or.inr (Or.inl ⟨hp, hge⟩)
  · intro hr hge
    rw [hmain]
    exact Or.inr (Or.inr ⟨hr, hge⟩)

/-- Witness for C1: on `sb3`/`st3` an unprivileged no-flag request of one
cluster is allowed, by the first rung of the ladder. -/
theorem c1_has_free_clusters_ladder_witness :
    ext4_has_free_clusters sb3 st3 callerNone 1 MbFlags.none = 1 :=
  ((c1_has_free_clusters_ladder sb3 st3 callerNone 1 MbFlags.none rfl rfl).2.1
    rfl rfl rfl rfl rfl).mpr (by decide)

/-- Counterexample to claim C10's final clause: on `sb3`, descriptor
`gdp10` places the block bitmap at block 100; synthesis passes the
`bit_max` guard and completes (returns ok), yet the sequence of bit
indices it hands to `ext4_set_bit` contains 100, which is at or beyond the
buffer's 8-bit capacity — only the base-metadata run is guarded, not the
special-block bits. -/
theorem c10_oob_bit_cex :
    (ext4_init_block_bitmap sb3 bh3 0 gdp10 st3).1 = .ok ()
    ∧ 100 ∈ ext4_init_block_bitmap_bit_trace sb3 0 gdp10
    ∧ 8 * bh3.b_size ≤ 100
    ∧ bh3.data.length = 8 * bh3.b_size :=
  ⟨rfl, by decide, by decide, by decide⟩

/-- Claim C10, amended: when the base-metadata bit range does not fit the
buffer, `ext4_init_block_bitmap` returns `EFSCORRUPTED` before setting any
bit, leaves the buffer zeroed, does not touch the descriptor, does not
mark the group corrupt and debits no global counter; when the guard
passes, every bit of the base-metadata run is within the buffer's bit
capacity (the block-bitmap, inode-bitmap and inode-table bits are set
without any such guard). -/
theorem c10_synth_guard (sb : SB) (bh : Buffer) (g : Nat) (gdp : GroupDesc)
    (st : FsState) (h1 : gdp.csum_ok = true)
    (h2 : bh.b_size ≤ ext4_num_base_meta_clusters sb g >>> 3) :
    (ext4_init_block_bitmap sb bh g gdp st).1 = .error .EFSCORRUPTED
    ∧ (ext4_init_block_bitmap sb bh g gdp st).2.1.data
        = List.replicate (sb.blocksize * 8) false ++ bh.data.drop (sb.blocksize * 8)
    ∧ (ext4_init_block_bitmap sb bh g gdp st).2.2.1 = gdp
    ∧ (ext4_init_block_bitmap sb bh g gdp st).2.2.2 = st
    ∧ (∀ (g2 : Nat) (bh2 : Buffer), ext4_num_base_meta_clusters sb g2 >>> 3 < bh2.b_size →
        ∀ i < ext4_num_base_meta_clusters sb g2, i < 8 * bh2.b_size) := by
  have hguard : ext4_num_base_meta_clusters sb g >>> 3 ≥ bh.b_size := h2
  simp only [ext4_init_block_bitmap]
  rw [if_neg (by simp [h1]), if_pos hguard]
  refine ⟨rfl, rfl, rfl, rfl, ?_⟩
  intro g2 bh2 hlt i hi
  rw [Nat.shiftRight_eq_div_pow] at hlt
  have h8 : (2 : Nat) ^ 3 = 8 := by norm_num
  rw [h8] at hlt
  omega

/-- Witness for the amended C10 on the zero-size buffer `bh0`. -/
theorem c10_synth_guard_witness :
    (ext4_init_block_bitmap sb3 bh0 0 gdp3 st3).1 = .error .EFSCORRUPTED :=
  (c10_synth_guard sb3 bh0 0 gdp3 st3 rfl (by decide)).1

theorem countFreeTerm_corrupt (st : FsState) (descs : Nat → Option GroupDesc)
    (i : Nat) (hl : st.group_info_loaded = true)
    (hc : (st.groups i).bbitmap_corrupt = true) :
    countFreeTerm st descs i = 0 := by
  unfold countFreeTerm
  cases descs i with
  | none => rfl
  | some gdp => simp [hl, hc]

/-- Claim C2: whenever validation of a not-yet-corrupt group fails (bad
bitmap checksum or bad layout), the group's believed free count is debited
from the global counter and the group is marked corrupt; a second validate
on the same group returns the corrupt error with the state unchanged (no
second debit); the diagnostic free-cluster scan then counts that group as
zero; and the descriptor-checksum path of synthesis debits once and, on a
repeat call, errors again without debiting. -/
theorem c2_corrupt_debit_once (sb : SB) (desc : GroupDesc) (g : Nat) (bh : Buffer)
    (st : FsState) (descs : Nat → Option GroupDesc) (e : Err)
    (hnc : (st.groups g).bbitmap_corrupt = false)
    (hload : st.group_info_loaded = true)
    (herr : (ext4_validate_block_bitmap sb desc g bh st).1 = .error e) :
    (ext4_validate_block_bitmap sb desc g bh st).2.1.freeclusters
        = st.freeclusters.sub ((st.groups g).bb_free : Int)
    ∧ ((ext4_validate_block_bitmap sb desc g bh st).2.1.groups g).bbitmap_corrupt = true
    ∧ (∀ (desc2 : GroupDesc) (bh2 : Buffer), bh2.verified = false →
        ext4_validate_block_bitmap sb desc2 g bh2
            (ext4_validate_block_bitmap sb desc g bh st).2.1
          = (.error .EFSCORRUPTED, (ext4_validate_block_bitmap sb desc g bh st).2.1, bh2))
    ∧ ext4_count_free_clusters sb descs (ext4_validate_block_bitmap sb desc g bh st).2.1
        = ((List.range sb.groups_count).map
            (fun i => if i = g then 0
             else countFreeTerm (ext4_validate_block_bitmap sb desc g bh st).2.1 descs i)).sum
    ∧ (∀ (gdp : GroupDesc) (bh3 : Buffer), gdp.csum_ok = false →
        ((ext4_init_block_bitmap sb bh3 g gdp st).1 = .error .EFSBADCRC
         ∧ (ext4_init_block_bitmap sb bh3 g gdp st).2.2.2.freeclusters
             = st.freeclusters.sub ((st.groups g).bb_free : Int)
         ∧ (ext4_init_block_bitmap sb bh3 g gdp
              (ext4_init_block_bitmap sb bh3 g gdp st).2.2.2).1 = .error .EFSBADCRC
         ∧ (ext4_init_block_bitmap sb bh3 g gdp
              (ext4_init_block_bitmap sb bh3 g gdp st).2.2.2).2.2.2.freeclusters
             = (ext4_init_block_bitmap sb bh3 g gdp st).2.2.2.freeclusters)) := by
  have hbv : bh.verified = false := by
    by_contra hb
    have hb' : bh.verified = true := by
      revert hb
      cases bh.verified <;> simp
    unfold ext4_validate_block_bitmap at herr
    rw [if_pos hb'] at herr
    exact Except.noConfusion herr
  have key : ∃ e2, ext4_validate_block_bitmap sb desc g bh st
      = (.error e2,
         FsState.setBBCorrupt
           { st with freeclusters := st.freeclusters.sub ((st.groups g).bb_free : Int) } g,
         bh) := by
    by_cases hcs : ext4_block_bitmap_csum_verify sb desc bh
    · by_cases hblk : ext4_valid_block_bitmap sb desc g bh = 0
      · exfalso
        simp only [ext4_validate_block_bitmap, hbv, hnc, hcs, hblk] at herr
        simp at herr
      · refine ⟨.EFSCORRUPTED, ?_⟩
        simp [ext4_validate_block_bitmap, hbv, hnc, hcs, hblk]
    · refine ⟨.EFSBADCRC, ?_⟩
      simp [ext4_validate_block_bitmap, hbv, hnc, hcs]
  obtain ⟨e2, hkey⟩ := key
  refine ⟨?_, ?_, ?_, ?_, ?_⟩
  · rw [hkey]
    simp [FsState.setBBCorrupt]
  · rw [hkey]
    simp [FsState.setBBCorrupt]
  · intro desc2 bh2 hv2
    rw [hkey]
    unfold ext4_validate_block_bitmap
    rw [if_neg (by simp [hv2])]
    rw [if_pos (by simp [FsState.setBBCorrupt])]
  · rw [hkey]
    unfold ext4_count_free_clusters
    refine congrArg List.sum (List.map_congr_left ?_)
    intro i _
    by_cases hig : i = g
    · subst hig
      rw [if_pos rfl]
      refine countFreeTerm_corrupt _ _ _ ?_ ?_
      · simp [FsState.setBBCorrupt, hload]
      · simp [FsState.setBBCorrupt]
    · rw [if_neg hig]
  · intro gdp bh3 hcs0
    have hcs0' : ¬gdp.csum_ok = true := by simp [hcs0]
    refine ⟨?_, ?_, ?_, ?_⟩
    · simp only [ext4_init_block_bitmap]
      rw [if_pos hcs0']
    · simp only [ext4_init_block_bitmap]
      rw [if_pos hcs0']
      by_cases hic : (st.groups g).ibitmap_corrupt <;>
        simp [FsState.setBBCorrupt, FsState.setIBCorrupt, hnc, hic]
    · simp only [ext4_init_block_bitmap]
      rw [if_pos hcs0', if_pos hcs0']
    · simp only [ext4_init_block_bitmap]
      rw [if_pos hcs0', if_pos hcs0']
      by_cases hic : (st.groups g).ibitmap_corrupt <;>
        simp [FsState.setBBCorrupt, FsState.setIBCorrupt, hnc, hic]

/-- Witness for C2: the mismatching stored checksum of `gdp2` fails
validation on the never-corrupt state `st3`. -/
theorem c2_corrupt_debit_once_witness :
    (ext4_validate_block_bitmap sb2 gdp2 0 bh3 st3).2.1.freeclusters
      = st3.freeclusters.sub ((st3.groups 0).bb_free : Int) :=
  (c2_corrupt_debit_once sb2 gdp2 0 bh3 st3 (fun _ => some gdp2) .EFSBADCRC
    rfl rfl rfl).1

/-! ## Bit-level lemmas about the synthesized bitmap -/

theorem ext4_set_bit_length (n : Nat) (d : List Bool) :
    (ext4_set_bit n d).length = d.length := by
  unfold ext4_set_bit
  exact List.length_set d n true

theorem ext4_test_bit_set_bit (n m : Nat) (d : List Bool) :
    ext4_test_bit m (ext4_set_bit n d)
      = if n = m ∧ n < d.length then true else ext4_test_bit m d := by
  unfold ext4_test_bit ext4_set_bit
  rw [List.getD_eq_getElem?_getD, List.getD_eq_getElem?_getD, List.getElem?_set]
  by_cases h1 : n = m
  · subst h1
    by_cases h2 : n < d.length
    · simp [h2]
    · simp [h2, List.getElem?_eq_none (Nat.le_of_not_lt h2)]
  · simp [h1]

theorem ext4_set_bit_test_mono (n m : Nat) (d : List Bool)
    (h : ext4_test_bit m d = true) : ext4_test_bit m (ext4_set_bit n d) = true := by
  rw [ext4_test_bit_set_bit]
  split_ifs <;> simp [h]

theorem foldl_set_bit_length (L : List Nat) (d : List Bool) :
    (L.foldl (fun dd b => ext4_set_bit b dd) d).length = d.length := by
  induction L generalizing d with
  | nil => rfl
  | cons a L ih => rw [List.foldl_cons, ih, ext4_set_bit_length]

theorem foldl_set_bit_test (L : List Nat) (d : List Bool) (m : Nat) :
    ext4_test_bit m (L.foldl (fun dd b => ext4_set_bit b dd) d)
      = if m ∈ L ∧ m < d.length then true else ext4_test_bit m d := by
  induction L generalizing d with
  | nil => simp
  | cons a L ih =>
    rw [List.foldl_cons, ih, ext4_set_bit_length, ext4_test_bit_set_bit]
    by_cases h1 : m ∈ L ∧ m < d.length
    · rw [if_pos h1, if_pos ⟨List.mem_cons_of_mem a h1.1, h1.2⟩]
    · rw [if_neg h1]
      by_cases h2 : a = m ∧ a < d.length
      · rw [if_pos h2, if_pos ⟨h2.1 ▸ List.mem_cons_self a L, h2.1 ▸ h2.2⟩]
      · rw [if_neg h2, if_neg ?_]
        rintro ⟨hm, hlen⟩
        rcases List.mem_cons.mp hm with h | h
        · exact h2 ⟨h.symm, h ▸ hlen⟩
        · exact h1 ⟨h, hlen⟩

theorem foldl_set_bit_test_mono (L : List Nat) (d : List Bool) (m : Nat)
    (h : ext4_test_bit m d = true) :
    ext4_test_bit m (L.foldl (fun dd b => ext4_set_bit b dd) d) = true := by
  rw [foldl_set_bit_test]
  split_ifs <;> simp [h]

theorem foldl_ite_set_eq_filterMap {α : Type} (P : Nat → Prop) [DecidablePred P]
    (f : Nat → Nat) (step : α → Nat → α) (L : List Nat) (s : α) :
    L.foldl (fun d i => if P i then step d (f i) else d) s
      = (L.filterMap (fun i => if P i then some (f i) else none)).foldl step s := by
  induction L generalizing s with
  | nil => rfl
  | cons a L ih =>
    by_cases h : P a <;> simp [h, ih]

theorem ext4_mark_bitmap_end_test (n maxb : Nat) (d : List Bool) (m : Nat) :
    ext4_test_bit m (ext4_mark_bitmap_end n maxb d)
      = if m ∈ List.range' n (maxb - n) ∧ m < d.length then true
        else ext4_test_bit m d := by
  unfold ext4_mark_bitmap_end
  exact foldl_set_bit_test _ d m

theorem ext4_mark_bitmap_end_length (n maxb : Nat) (d : List Bool) :
    (ext4_mark_bitmap_end n maxb d).length = d.length := by
  unfold ext4_mark_bitmap_end
  exact foldl_set_bit_length _ d

theorem ext4_find_next_zero_bit_all_set (d : List Bool) (maxb s : Nat)
    (h : ∀ i, s ≤ i → i < maxb → ext4_test_bit i d = true) :
    ext4_find_next_zero_bit d maxb s = maxb := by
  unfold ext4_find_next_zero_bit
  rw [List.find?_eq_none.mpr ?_]
  · rfl
  · intro i hi
    rw [List.mem_range'_1] at hi
    simp [h i hi.1 (by omega)]

theorem EXT4_B2C_eq (sb : SB) (n : Nat) :
    EXT4_B2C sb n = n / 2 ^ sb.cluster_bits := by
  unfold EXT4_B2C
  exact Nat.shiftRight_eq_div_pow n _

theorem EXT4_NUM_B2C_eq (sb : SB) (n : Nat) :
    EXT4_NUM_B2C sb n = (n + 2 ^ sb.cluster_bits - 1) / 2 ^ sb.cluster_bits := by
  unfold EXT4_NUM_B2C
  rw [Nat.shiftLeft_eq, one_mul, Nat.shiftRight_eq_div_pow]

theorem b2c_coverage (r off itb k : Nat) (hr : 0 < r) (h1 : off / r ≤ k)
    (h2 : k < (off + itb) / r) : ∃ i, i < itb ∧ (off + i) / r = k := by
  rcases Nat.lt_or_ge (k * r) off with h | h
  · have hk' : k ≤ off / r := (Nat.le_div_iff_mul_le hr).mpr (le_of_lt h)
    have hk : k = off / r := by omega
    have hitb : 0 < itb := by
      by_contra hh
      have hz : itb = 0 := by omega
      subst hz
      rw [Nat.add_zero] at h2
      omega
    refine ⟨0, hitb, ?_⟩
    rw [Nat.add_zero]
    exact hk.symm
  · have hk1 : k * r + r ≤ off + itb := by
      have h' : (k + 1) * r ≤ off + itb := (Nat.le_div_iff_mul_le hr).mp (by omega)
      calc k * r + r = (k + 1) * r := by ring
        _ ≤ off + itb := h'
    refine ⟨k * r - off, by omega, ?_⟩
    have he : off + (k * r - off) = k * r := by omega
    rw [he, Nat.mul_div_cancel k hr]

theorem ite_set_bit_length (c : Prop) [Decidable c] (n : Nat) (d : List Bool) :
    (if c then ext4_set_bit n d else d).length = d.length := by
  split_ifs
  · exact ext4_set_bit_length n d
  · rfl

theorem ite_set_bit_test_mono (c : Prop) [Decidable c] (n m : Nat) (d : List Bool)
    (h : ext4_test_bit m d = true) :
    ext4_test_bit m (if c then ext4_set_bit n d else d) = true := by
  split_ifs
  · exact ext4_set_bit_test_mono n m d h
  · exact h

theorem ext4_mark_bitmap_end_test_mono (n maxb : Nat) (d : List Bool) (m : Nat)
    (h : ext4_test_bit m d = true) :
    ext4_test_bit m (ext4_mark_bitmap_end n maxb d) = true := by
  rw [ext4_mark_bitmap_end_test]
  split_ifs <;> simp [h]

theorem foldl_ite_set_bit_eq (P : Nat → Prop) [DecidablePred P] (f : Nat → Nat)
    (L : List Nat) (s : List Bool) :
    L.foldl (fun d i => if P i then ext4_set_bit (f i) d else d) s
      = (L.filterMap (fun i => if P i then some (f i) else none)).foldl
          (fun dd b => ext4_set_bit b dd) s := by
  induction L generalizing s with
  | nil => rfl
  | cons a L ih =>
    by_cases h : P a <;> simp [h, ih]

theorem foldl_ite_set_bit_test_mono (P : Nat → Prop) [DecidablePred P]
    (f : Nat → Nat) (L : List Nat) (d : List Bool) (m : Nat)
    (h : ext4_test_bit m d = true) :
    ext4_test_bit m (L.foldl (fun dd i => if P i then ext4_set_bit (f i) dd else dd) d)
      = true := by
  rw [foldl_ite_set_bit_eq]
  exact foldl_set_bit_test_mono _ _ _ h

theorem foldl_ite_set_bit_length (P : Nat → Prop) [DecidablePred P]
    (f : Nat → Nat) (L : List Nat) (d : List Bool) :
    (L.foldl (fun dd i => if P i then ext4_set_bit (f i) dd else dd) d).length
      = d.length := by
  rw [foldl_ite_set_bit_eq]
  exact foldl_set_bit_length _ _

theorem init_data_length (sb : SB) (g : Nat) (gdp : GroupDesc) (d : List Bool) :
    (ext4_init_block_bitmap_data sb g gdp d).length = d.length := by
  simp only [ext4_init_block_bitmap_data]
  rw [ext4_mark_bitmap_end_length, foldl_ite_set_bit_length,
      ite_set_bit_length, ite_set_bit_length, foldl_set_bit_length]

theorem init_data_test_bb (sb : SB) (g : Nat) (gdp : GroupDesc) (d : List Bool)
    (hcond : ¬sb.feature_flex_bg = true
      ∨ ext4_block_in_group sb gdp.block_bitmap g = true)
    (hlt : EXT4_B2C sb (gdp.block_bitmap - ext4_group_first_block_no sb g) < d.length) :
    ext4_test_bit (EXT4_B2C sb (gdp.block_bitmap - ext4_group_first_block_no sb g))
      (ext4_init_block_bitmap_data sb g gdp d) = true := by
  simp only [ext4_init_block_bitmap_data]
  apply ext4_mark_bitmap_end_test_mono
  apply foldl_ite_set_bit_test_mono
  apply ite_set_bit_test_mono
  rw [if_pos hcond, ext4_test_bit_set_bit,
      if_pos ⟨rfl, by rw [foldl_set_bit_length]; exact hlt⟩]

theorem init_data_test_ib (sb : SB) (g : Nat) (gdp : GroupDesc) (d : List Bool)
    (hcond : ¬sb.feature_flex_bg = true
      ∨ ext4_block_in_group sb gdp.inode_bitmap g = true)
    (hlt : EXT4_B2C sb (gdp.inode_bitmap - ext4_group_first_block_no sb g) < d.length) :
    ext4_test_bit (EXT4_B2C sb (gdp.inode_bitmap - ext4_group_first_block_no sb g))
      (ext4_init_block_bitmap_data sb g gdp d) = true := by
  simp only [ext4_init_block_bitmap_data]
  apply ext4_mark_bitmap_end_test_mono
  apply foldl_ite_set_bit_test_mono
  rw [if_pos hcond, ext4_test_bit_set_bit,
      if_pos ⟨rfl, by rw [ite_set_bit_length, foldl_set_bit_length]; exact hlt⟩]

theorem init_data_test_it (sb : SB) (g : Nat) (gdp : GroupDesc) (d : List Bool)
    (k : Nat) (hflex : sb.feature_flex_bg = false)
    (hit1 : ext4_group_first_block_no sb g ≤ gdp.inode_table)
    (hk1 : EXT4_B2C sb (gdp.inode_table - ext4_group_first_block_no sb g) ≤ k)
    (hk2 : k < EXT4_B2C sb
      (gdp.inode_table - ext4_group_first_block_no sb g + sb.itb_per_group))
    (hklen : k < d.length) :
    ext4_test_bit k (ext4_init_block_bitmap_data sb g gdp d) = true := by
  have hrpos : 0 < 2 ^ sb.cluster_bits := Nat.pos_pow_of_pos _ (by omega)
  rw [EXT4_B2C_eq] at hk1 hk2
  obtain ⟨i, hi, hik⟩ := b2c_coverage (2 ^ sb.cluster_bits)
    (gdp.inode_table - ext4_group_first_block_no sb g) sb.itb_per_group k
    hrpos hk1 hk2
  have hidx : EXT4_B2C sb (gdp.inode_table + i - ext4_group_first_block_no sb g)
      = k := by
    rw [EXT4_B2C_eq]
    have he : gdp.inode_table + i - ext4_group_first_block_no sb g
        = gdp.inode_table - ext4_group_first_block_no sb g + i := by omega
    rw [he]
    exact hik
  simp only [ext4_init_block_bitmap_data]
  apply ext4_mark_bitmap_end_test_mono
  rw [foldl_ite_set_bit_eq, foldl_set_bit_test, if_pos ?_]
  constructor
  · rw [List.mem_filterMap]
    refine ⟨i, List.mem_range.mpr hi, ?_⟩
    rw [if_pos (Or.inl (by simp [hflex]))]
    rw [hidx]
  · rw [ite_set_bit_length, ite_set_bit_length, foldl_set_bit_length]
    exact hklen

/-- Claim C3: for a group whose descriptor passes the checksum check and is
marked block-bitmap-uninitialized (with a well-formed geometry: the buffer
is one block, the base-metadata run passes the bound guard, the special
blocks' cluster bits fit in the bitmap and the inode table does not start
before the group), synthesizing the bitmap and then validating the same
buffer always succeeds: synthesis returns ok, the stored checksum matches,
the layout check returns 0 and validation returns ok. -/
theorem c3_init_validate_roundtrip (sb : SB) (gdp : GroupDesc) (g : Nat)
    (bh : Buffer) (st : FsState)
    (hcs : gdp.csum_ok = true)
    (hun : gdp.block_uninit = true)
    (hnc : (st.groups g).bbitmap_corrupt = false)
    (hsz : bh.b_size = sb.blocksize)
    (hlen : bh.data.length = sb.blocksize * 8)
    (hguard : ext4_num_base_meta_clusters sb g >>> 3 < bh.b_size)
    (hbb : EXT4_B2C sb (gdp.block_bitmap - ext4_group_first_block_no sb g)
      < sb.blocksize * 8)
    (hib : EXT4_B2C sb (gdp.inode_bitmap - ext4_group_first_block_no sb g)
      < sb.blocksize * 8)
    (hit1 : ext4_group_first_block_no sb g ≤ gdp.inode_table)
    (hit2 : EXT4_B2C sb (gdp.inode_table - ext4_group_first_block_no sb g
      + sb.itb_per_group) ≤ sb.blocksize * 8) :
    (ext4_init_block_bitmap sb bh g gdp st).1 = .ok ()
    ∧ ext4_block_bitmap_csum_verify sb (ext4_init_block_bitmap sb bh g gdp st).2.2.1
        (ext4_init_block_bitmap sb bh g gdp st).2.1 = true
    ∧ ext4_valid_block_bitmap sb (ext4_init_block_bitmap sb bh g gdp st).2.2.1 g
        (ext4_init_block_bitmap sb bh g gdp st).2.1 = 0
    ∧ (ext4_validate_block_bitmap sb (ext4_init_block_bitmap sb bh g gdp st).2.2.1 g
        (ext4_init_block_bitmap sb bh g gdp st).2.1 st).1 = .ok () := by
  have hguard' : ¬(bh.b_size ≤ ext4_num_base_meta_clusters sb g >>> 3) :=
    Nat.not_le.mpr hguard
  set D := ext4_init_block_bitmap_data sb g gdp
      (List.replicate (sb.blocksize * 8) false ++ bh.data.drop (sb.blocksize * 8))
    with hD
  set bh1 : Buffer := { bh with data := D } with hbh1
  set gdpF := ext4_group_desc_csum_set (ext4_block_bitmap_csum_set sb gdp bh1)
    with hgdpF
  have hred : ext4_init_block_bitmap sb bh g gdp st = (.ok (), bh1, gdpF, st) := by
    simp only [ext4_init_block_bitmap]
    rw [if_neg (by simp [hcs]), if_neg hguard']
  have hd0len : (List.replicate (sb.blocksize * 8) false
      ++ bh.data.drop (sb.blocksize * 8)).length = sb.blocksize * 8 := by
    simp [hlen]
  have hDlen : D.length = sb.blocksize * 8 := by
    rw [hD, init_data_length]
    exact hd0len
  have hver : ext4_block_bitmap_csum_verify sb gdpF bh1 = true := by
    rw [hgdpF]
    simp [ext4_block_bitmap_csum_verify, ext4_block_bitmap_csum_set,
      ext4_group_desc_csum_set]
  have hval : ext4_valid_block_bitmap sb gdpF g bh1 = 0 := by
    by_cases hflex : sb.feature_flex_bg = true
    · simp [ext4_valid_block_bitmap, hflex]
    · have hflex' : sb.feature_flex_bg = false := by
        revert hflex
        cases sb.feature_flex_bg <;> simp
      have t1 : ext4_test_bit
          (EXT4_B2C sb (gdp.block_bitmap - ext4_group_first_block_no sb g)) D
          = true := by
        rw [hD]
        exact init_data_test_bb sb g gdp _ (Or.inl (by simp [hflex']))
          (by rw [hd0len]; exact hbb)
      have t2 : ext4_test_bit
          (EXT4_B2C sb (gdp.inode_bitmap - ext4_group_first_block_no sb g)) D
          = true := by
        rw [hD]
        exact init_data_test_ib sb g gdp _ (Or.inl (by simp [hflex']))
          (by rw [hd0len]; exact hib)
      have hcov : ∀ i,
          EXT4_B2C sb (gdp.inode_table - ext4_group_first_block_no sb g) ≤ i →
          i < EXT4_B2C sb (gdp.inode_table - ext4_group_first_block_no sb g
            + sb.itb_per_group) →
          ext4_test_bit i D = true := by
        intro k hk1 hk2
        rw [hD]
        exact init_data_test_it sb g gdp _ k hflex' hit1 hk1 hk2
          (by rw [hd0len]; omega)
      simp only [ext4_valid_block_bitmap]
      rw [if_neg (by simp [hflex'])]
      simp only [hgdpF, ext4_group_desc_csum_set, ext4_block_bitmap_csum_set,
        hbh1]
      rw [if_neg (by simp [t1])]
      rw [if_neg (by simp [t2])]
      rw [ext4_find_next_zero_bit_all_set D _ _ hcov]
      rw [if_neg (lt_irrefl _)]
  have hfinal : (ext4_validate_block_bitmap sb gdpF g bh1 st).1 = .ok () := by
    by_cases hv : bh.verified = true
    · simp [ext4_validate_block_bitmap, hv]
    · have hv' : bh.verified = false := by
        revert hv
        cases bh.verified <;> simp
      simp [ext4_validate_block_bitmap, hv', hnc, hver, hval]
  rw [hred]
  exact ⟨rfl, hver, hval, hfinal⟩

/-- Witness for C3: the well-formed single-group descriptor `gdp3` on `sb3`
synthesizes and re-validates successfully. -/
theorem c3_init_validate_roundtrip_witness :
    (ext4_init_block_bitmap sb3 bh3 0 gdp3 st3).1 = .ok ()
    ∧ (ext4_validate_block_bitmap sb3 (ext4_init_block_bitmap sb3 bh3 0 gdp3 st3).2.2.1 0
        (ext4_init_block_bitmap sb3 bh3 0 gdp3 st3).2.1 st3).1 = .ok () :=
  ⟨(c3_init_validate_roundtrip sb3 gdp3 0 bh3 st3 rfl rfl rfl rfl (by decide)
      (by decide) (by decide) (by decide) (by decide) (by decide)).1,
   (c3_init_validate_roundtrip sb3 gdp3 0 bh3 st3 rfl rfl rfl rfl (by decide)
      (by decide) (by decide) (by decide) (by decide) (by decide)).2.2.2⟩

/-! ## Lemmas for the overhead bounds -/

theorem block_in_group_iff (sb : SB) (blk g : Nat)
    (hstd : sb.opt_std_group_size = false) :
    ext4_block_in_group sb blk g = true
      ↔ (blk - sb.first_data_block) / sb.blocks_per_group = g := by
  unfold ext4_block_in_group ext4_get_group_number ext4_get_group_no_and_offset
  simp [hstd]

theorem div_lt_ceil (r x n : Nat) (hr : 0 < r) (hx : x ≤ n - 1) (hn : 1 ≤ n) :
    x / r < (n + r - 1) / r := by
  have h1 : x / r ≤ (n - 1) / r := Nat.div_le_div_right hx
  have h3 : n + r - 1 = (n - 1) + r := by omega
  rw [h3, Nat.add_div_right _ hr]
  omega

theorem in_group_cluster_lt (sb : SB) (g blk : Nat)
    (hstd : sb.opt_std_group_size = false)
    (hbpg : 0 < sb.blocks_per_group)
    (hg : g < sb.groups_count)
    (hlast : sb.first_data_block + (sb.groups_count - 1) * sb.blocks_per_group
      < sb.blocks_count)
    (hblk : blk < sb.blocks_count)
    (hin : ext4_block_in_group sb blk g = true) :
    EXT4_B2C sb (blk - ext4_group_first_block_no sb g)
      < num_clusters_in_group sb g := by
  have hr : 0 < 2 ^ sb.cluster_bits := Nat.pos_pow_of_pos _ (by omega)
  rw [block_in_group_iff sb blk g hstd] at hin
  rw [EXT4_B2C_eq]
  have hub : blk - sb.first_data_block < g * sb.blocks_per_group
      + sb.blocks_per_group := by
    have h := (Nat.div_lt_iff_lt_mul hbpg).mp (by omega :
      (blk - sb.first_data_block) / sb.blocks_per_group < g + 1)
    calc blk - sb.first_data_block < (g + 1) * sb.blocks_per_group := h
      _ = g * sb.blocks_per_group + sb.blocks_per_group := by ring
  have hlb : g * sb.blocks_per_group ≤ blk - sb.first_data_block :=
    (Nat.le_div_iff_mul_le hbpg).mp (by omega)
  have hmul : (sb.groups_count - 1) * sb.blocks_per_group
      = g * sb.blocks_per_group + (sb.groups_count - 1 - g) * sb.blocks_per_group := by
    rw [← Nat.add_mul]
    congr 1
    omega
  unfold num_clusters_in_group
  rw [EXT4_NUM_B2C_eq]
  by_cases hlg : g = sb.groups_count - 1
  · rw [if_pos hlg]
    unfold ext4_group_first_block_no
    have hstart : sb.first_data_block + g * sb.blocks_per_group
        < sb.blocks_count := by
      rw [hlg]
      exact hlast
    apply div_lt_ceil _ _ _ hr ?_ (by omega)
    omega
  · rw [if_neg hlg]
    unfold ext4_group_first_block_no
    apply div_lt_ceil _ _ _ hr ?_ (by omega)
    omega

theorem overheadItblStep_inv (B : Nat) (bc ic : Int) (s : Nat × Int)
    (S : Finset Nat) (c : Nat) (hI : OvhInv B bc ic s S) (hcB : c < B)
    (htc : s.2 ≤ (c : Int)) :
    ∃ T : Finset Nat, OvhInv B bc ic (overheadItblStep bc ic s c) T
      ∧ (overheadItblStep bc ic s c).2 ≤ (c : Int) := by
  obtain ⟨hcard, hbnd, hord, hne⟩ := hI
  unfold overheadItblStep
  split_ifs with h1 h2
  · exact ⟨S, ⟨hcard, hbnd, hord, hne⟩, htc⟩
  · push_neg at h1
    obtain ⟨hlt, hic, hbc, htcne⟩ := h1
    have hnotmem : c ∉ S := by
      intro hmem
      rcases hord c hmem with h | h
      · omega
      · exact htcne (le_antisymm h htc)
    refine ⟨insert c S, ⟨?_, ?_, ?_, ?_⟩, htc⟩
    · rw [Finset.card_insert_of_not_mem hnotmem]
      show s.1 + 1 = S.card + 1
      omega
    · intro x hx
      rcases Finset.mem_insert.mp hx with rfl | hx
      · exact hcB
      · exact hbnd x hx
    · intro x hx
      rcases Finset.mem_insert.mp hx with rfl | hx
      · left
        omega
      · rcases hord x hx with h | h
        · left
          simp only []
          omega
        · right
          exact h
    · intro x hx
      rcases Finset.mem_insert.mp hx with rfl | hx
      · exact ⟨hbc, hic⟩
      · exact hne x hx
  · push_neg at h1
    obtain ⟨hlt, hic, hbc, htcne⟩ := h1
    have hnotmem : c ∉ S := by
      intro hmem
      rcases hord c hmem with h | h
      · omega
      · exact htcne (le_antisymm h htc)
    refine ⟨insert c S, ⟨?_, ?_, ?_, ?_⟩, le_refl _⟩
    · rw [Finset.card_insert_of_not_mem hnotmem]
      show s.1 + 1 = S.card + 1
      omega
    · intro x hx
      rcases Finset.mem_insert.mp hx with rfl | hx
      · exact hcB
      · exact hbnd x hx
    · intro x hx
      rcases Finset.mem_insert.mp hx with rfl | hx
      · right
        exact le_refl _
      · rcases hord x hx with h | h
        · left
          simp only []
          omega
        · right
          exact le_trans h htc
    · intro x hx
      rcases Finset.mem_insert.mp hx with rfl | hx
      · exact ⟨hbc, hic⟩
      · exact hne x hx

theorem overheadItblFold_inv (B : Nat) (bc ic : Int) :
    ∀ (L : List Nat) (s : Nat × Int) (S : Finset Nat),
      List.Pairwise (· ≤ ·) L → (∀ c ∈ L, c < B) →
      (∀ c ∈ L, s.2 ≤ (c : Int)) → OvhInv B bc ic s S →
      ∃ T : Finset Nat, OvhInv B bc ic (L.foldl (overheadItblStep bc ic) s) T := by
  intro L
  induction L with
  | nil =>
    intro s S _ _ _ hI
    exact ⟨S, hI⟩
  | cons a L ih =>
    intro s S hp hb htc hI
    rw [List.foldl_cons]
    obtain ⟨hpa, hpl⟩ := List.pairwise_cons.mp hp
    obtain ⟨T1, hI1, htc1⟩ := overheadItblStep_inv B bc ic s S a hI
      (hb a (List.mem_cons_self a L)) (htc a (List.mem_cons_self a L))
    refine ih _ T1 hpl (fun c hc => hb c (List.mem_cons_of_mem a hc)) ?_ hI1
    intro c hc
    calc (overheadItblStep bc ic s a).2 ≤ (a : Int) := htc1
      _ ≤ (c : Int) := by exact_mod_cast hpa c hc

theorem overheadItblStep_fst_le (bc ic : Int) (s : Nat × Int) (c : Nat) :
    s.1 ≤ (overheadItblStep bc ic s c).1 := by
  unfold overheadItblStep
  split_ifs <;> simp

theorem foldl_fst_mono {β : Type} (f : Nat × Int → β → Nat × Int)
    (hf : ∀ s b, s.1 ≤ (f s b).1) (L : List β) (s : Nat × Int) :
    s.1 ≤ (L.foldl f s).1 := by
  induction L generalizing s with
  | nil => exact le_refl _
  | cons a L ih => exact le_trans (hf s a) (ih (f s a))

theorem overhead_final_bound (B : Nat) (L : List Nat) (num2 : Nat) (bc ic : Int)
    (hnum : num2 ≤ B)
    (hLs : List.Pairwise (· ≤ ·) L)
    (hLb : ∀ c ∈ L, c < B)
    (hbc : bc = -1 ∨ ∃ cv : Nat, bc = (cv : Int) ∧ num2 ≤ cv ∧ cv < B)
    (hic : ic = -1 ∨ ∃ cv : Nat, ic = (cv : Int) ∧ num2 ≤ cv ∧ cv < B)
    (hne : bc ≠ -1 → ic ≠ -1 → bc ≠ ic) :
    (L.foldl (overheadItblStep bc ic) (num2, (-1 : Int))).1
      + (if bc ≠ -1 then 1 else 0) + (if ic ≠ -1 then 1 else 0) ≤ B := by
  have hI0 : OvhInv B bc ic (num2, -1) (Finset.range num2) := by
    refine ⟨?_, ?_, ?_, ?_⟩
    · simp
    · intro x hx
      rw [Finset.mem_range] at hx
      omega
    · intro x hx
      rw [Finset.mem_range] at hx
      left
      exact hx
    · intro x hx
      rw [Finset.mem_range] at hx
      constructor
      · rcases hbc with rfl | ⟨cv, rfl, hcv1, _⟩
        · simp
        · intro hcast
          have : x = cv := by exact_mod_cast hcast
          omega
      · rcases hic with rfl | ⟨cv, rfl, hcv1, _⟩
        · simp
        · intro hcast
          have : x = cv := by exact_mod_cast hcast
          omega
  obtain ⟨T, hIT⟩ := overheadItblFold_inv B bc ic L (num2, -1) (Finset.range num2)
    hLs hLb (fun c _ => by show (-1 : Int) ≤ (c : Int); omega) hI0
  obtain ⟨hcard, hbnd, _, hneT⟩ := hIT
  have hsub : ∀ U : Finset Nat, (∀ x ∈ U, x < B) → U.card ≤ B := by
    intro U hU
    calc U.card ≤ (Finset.range B).card :=
        Finset.card_le_card (fun x hx => Finset.mem_range.mpr (hU x hx))
      _ = B := Finset.card_range B
  have hTB : T.card ≤ B := hsub T hbnd
  rcases hbc with rfl | ⟨cb, rfl, hcb1, hcb2⟩
  · rcases hic with rfl | ⟨ci, rfl, hci1, hci2⟩
    · split_ifs <;> omega
    · have hci3 : ci ∉ T := fun hm => (hneT ci hm).2 rfl
      have hb2 := hsub (insert ci T) ?_
      · rw [Finset.card_insert_of_not_mem hci3] at hb2
        split_ifs <;> omega
      · intro x hx
        rcases Finset.mem_insert.mp hx with rfl | hx
        · exact hci2
        · exact hbnd x hx
  · have hcbne : (cb : Int) ≠ -1 := by
      intro hq
      omega
    rcases hic with rfl | ⟨ci, rfl, hci1, hci2⟩
    · have hcb3 : cb ∉ T := fun hm => (hneT cb hm).1 rfl
      have hb2 := hsub (insert cb T) ?_
      · rw [Finset.card_insert_of_not_mem hcb3] at hb2
        split_ifs <;> omega
      · intro x hx
        rcases Finset.mem_insert.mp hx with rfl | hx
        · exact hcb2
        · exact hbnd x hx
    · have hcine : (ci : Int) ≠ -1 := by
        intro hq
        omega
      have hcbci : cb ≠ ci := by
        intro hq
        exact hne hcbne hcine (by rw [hq])
      have hcb3 : cb ∉ T := fun hm => (hneT cb hm).1 rfl
      have hci3 : ci ∉ T := fun hm => (hneT ci hm).2 rfl
      have hb2 := hsub (insert cb (insert ci T)) ?_
      · rw [Finset.card_insert_of_not_mem ?_,
            Finset.card_insert_of_not_mem hci3] at hb2
        · split_ifs <;> omega
        · intro hm
          rcases Finset.mem_insert.mp hm with hq | hq
          · exact hcbci hq
          · exact hcb3 hq
      · intro x hx
        rcases Finset.mem_insert.mp hx with rfl | hx
        · exact hcb2
        · rcases Finset.mem_insert.mp hx with rfl | hx
          · exact hci2
          · exact hbnd x hx

theorem overheadBitmapPhase_spec (B num : Nat) (inb : Bool) (c : Nat)
    (hs : num ≤ B) (hc : inb = true → c < B) :
    ∃ n1 t1, overheadBitmapPhase num inb c = (n1, t1)
      ∧ num ≤ n1 ∧ n1 ≤ B ∧ n1 ≤ num + 1
      ∧ (t1 = -1 ∨ (inb = true ∧ t1 = (c : Int) ∧ n1 < c ∧ c < B ∧ n1 = num)) := by
  unfold overheadBitmapPhase
  by_cases hinb : inb = true
  · have hcB := hc hinb
    rw [if_pos hinb]
    rcases Nat.lt_trichotomy c num with h | h | h
    · rw [if_pos h]
      exact ⟨num, -1, rfl, le_refl _, hs, by omega, Or.inl rfl⟩
    · rw [if_neg (by omega), if_pos h]
      exact ⟨num + 1, -1, rfl, by omega, by omega, by omega, Or.inl rfl⟩
    · rw [if_neg (by omega), if_neg (by omega)]
      exact ⟨num, (c : Int), rfl, le_refl _, hs, by omega,
        Or.inr ⟨hinb, rfl, h, hcB, rfl⟩⟩
  · rw [if_neg hinb]
    exact ⟨num, -1, rfl, le_refl _, hs, by omega, Or.inl rfl⟩

theorem overhead_loop_close (sb : SB) (g : Nat) (gdp : GroupDesc) (n2 : Nat)
    (t1 t2 : Int)
    (hstd : sb.opt_std_group_size = false)
    (hbpg : 0 < sb.blocks_per_group)
    (hg : g < sb.groups_count)
    (hlast : sb.first_data_block + (sb.groups_count - 1) * sb.blocks_per_group
      < sb.blocks_count)
    (hitf : gdp.inode_table + sb.itb_per_group ≤ sb.blocks_count)
    (hnum : n2 ≤ num_clusters_in_group sb g)
    (hbc : t1 = -1 ∨ ∃ cv : Nat, t1 = (cv : Int) ∧ n2 ≤ cv
      ∧ cv < num_clusters_in_group sb g)
    (hic : t2 = -1 ∨ ∃ cv : Nat, t2 = (cv : Int) ∧ n2 ≤ cv
      ∧ cv < num_clusters_in_group sb g)
    (hne : t1 ≠ -1 → t2 ≠ -1 → t1 ≠ t2) :
    ((List.range sb.itb_per_group).foldl
        (fun s i =>
          if ext4_block_in_group sb (gdp.inode_table + i) g = true
          then overheadItblStep t1 t2 s
            (EXT4_B2C sb (gdp.inode_table + i - ext4_group_first_block_no sb g))
          else s)
        (n2, (-1 : Int))).1
      + (if t1 ≠ -1 then 1 else 0) + (if t2 ≠ -1 then 1 else 0)
      ≤ num_clusters_in_group sb g := by
  rw [foldl_ite_set_eq_filterMap
    (fun i => ext4_block_in_group sb (gdp.inode_table + i) g = true)
    (fun i => EXT4_B2C sb (gdp.inode_table + i - ext4_group_first_block_no sb g))
    (overheadItblStep t1 t2)]
  apply overhead_final_bound _ _ _ _ _ hnum ?_ ?_ hbc hic hne
  · rw [List.pairwise_filterMap]
    refine List.Pairwise.imp ?_ (List.pairwise_lt_range sb.itb_per_group)
    intro i j hij x hx y hy
    split_ifs at hx hy with h1 h2 h2
    · rw [Option.mem_some_iff] at hx hy
      subst hx
      subst hy
      rw [EXT4_B2C_eq, EXT4_B2C_eq]
      exact Nat.div_le_div_right (by omega)
    · exact absurd hy (by simp)
    · exact absurd hx (by simp)
    · exact absurd hx (by simp)
  · intro c hc
    rw [List.mem_filterMap] at hc
    obtain ⟨i, hi, hci⟩ := hc
    rw [List.mem_range] at hi
    by_cases hpi : ext4_block_in_group sb (gdp.inode_table + i) g = true
    · rw [if_pos hpi] at hci
      have hfc := Option.some.inj hci
      rw [← hfc]
      exact in_group_cluster_lt sb g (gdp.inode_table + i) hstd hbpg hg hlast
        (by omega) hpi
    · rw [if_neg hpi] at hci
      exact absurd hci (by simp)

/-- Counterexample to claim C7: on `sbT`, the descriptor `gdpT` of group 2
puts the block bitmap and the inode bitmap in the same cluster (blocks 34
and 35 with 2-block clusters) and the inode table across the whole group;
both shared-cluster copies end up pending and are each counted, so the
overhead is 7 although the group only has 6 clusters. -/
theorem c7_overhead_bounds_cex :
    ext4_num_overhead_clusters sbT 2 gdpT = 7
    ∧ num_clusters_in_group sbT 2 = 6
    ∧ ¬(ext4_num_overhead_clusters sbT 2 gdpT ≤ num_clusters_in_group sbT 2) := by
  refine ⟨by decide, by decide, by decide⟩

/-- Claim C7, amended: for a group of a consistent geometry whose
descriptor's bitmap and inode-table blocks lie inside the filesystem, with
the base metadata fitting in the group and — the condition the original
claim lacks — the block bitmap and the inode bitmap occupying distinct
clusters whenever both fall in the group, the overhead is bounded:
base_metadata_clusters(g) ≤ overhead_clusters(g, d) ≤ clusters_in_group(g). -/
theorem c7_overhead_bounds (sb : SB) (g : Nat) (gdp : GroupDesc)
    (hstd : sb.opt_std_group_size = false)
    (hbpg : 0 < sb.blocks_per_group)
    (hg : g < sb.groups_count)
    (hlast : sb.first_data_block + (sb.groups_count - 1) * sb.blocks_per_group
      < sb.blocks_count)
    (hbbf : gdp.block_bitmap < sb.blocks_count)
    (hibf : gdp.inode_bitmap < sb.blocks_count)
    (hitf : gdp.inode_table + sb.itb_per_group ≤ sb.blocks_count)
    (hbase : ext4_num_base_meta_clusters sb g ≤ num_clusters_in_group sb g)
    (hdist : ext4_block_in_group sb gdp.block_bitmap g = true →
      ext4_block_in_group sb gdp.inode_bitmap g = true →
      EXT4_B2C sb (gdp.block_bitmap - ext4_group_first_block_no sb g)
        ≠ EXT4_B2C sb (gdp.inode_bitmap - ext4_group_first_block_no sb g)) :
    ext4_num_base_meta_clusters sb g ≤ ext4_num_overhead_clusters sb g gdp
    ∧ ext4_num_overhead_clusters sb g gdp ≤ num_clusters_in_group sb g := by
  have hc1 : ext4_block_in_group sb gdp.block_bitmap g = true →
      EXT4_B2C sb (gdp.block_bitmap - ext4_group_first_block_no sb g)
        < num_clusters_in_group sb g :=
    fun hin => in_group_cluster_lt sb g gdp.block_bitmap hstd hbpg hg hlast hbbf hin
  have hc2 : ext4_block_in_group sb gdp.inode_bitmap g = true →
      EXT4_B2C sb (gdp.inode_bitmap - ext4_group_first_block_no sb g)
        < num_clusters_in_group sb g :=
    fun hin => in_group_cluster_lt sb g gdp.inode_bitmap hstd hbpg hg hlast hibf hin
  obtain ⟨n1, t1, he1, hs1, hB1, hsucc1, hp1⟩ :=
    overheadBitmapPhase_spec (num_clusters_in_group sb g)
      (ext4_num_base_meta_clusters sb g)
      (ext4_block_in_group sb gdp.block_bitmap g)
      (EXT4_B2C sb (gdp.block_bitmap - ext4_group_first_block_no sb g)) hbase hc1
  obtain ⟨n2, t2, he2, hs2, hB2, hsucc2, hp2⟩ :=
    overheadBitmapPhase_spec (num_clusters_in_group sb g) n1
      (ext4_block_in_group sb gdp.inode_bitmap g)
      (EXT4_B2C sb (gdp.inode_bitmap - ext4_group_first_block_no sb g)) hB1 hc2
  simp only [ext4_num_overhead_clusters, he1]
  simp only [he2]
  constructor
  · have hmono : n2 ≤ ((List.range sb.itb_per_group).foldl
        (fun s i =>
          if ext4_block_in_group sb (gdp.inode_table + i) g = true
          then overheadItblStep t1 t2 s
            (EXT4_B2C sb (gdp.inode_table + i - ext4_group_first_block_no sb g))
          else s)
        (n2, (-1 : Int))).1 := by
      exact foldl_fst_mono
        (fun s i =>
          if ext4_block_in_group sb (gdp.inode_table + i) g = true
          then overheadItblStep t1 t2 s
            (EXT4_B2C sb (gdp.inode_table + i - ext4_group_first_block_no sb g))
          else s)
        (fun s b => by
          dsimp only
          by_cases h : ext4_block_in_group sb (gdp.inode_table + b) g = true
          · rw [if_pos h]
            exact overheadItblStep_fst_le t1 t2 s _
          · rw [if_neg h])
        (List.range sb.itb_per_group) (n2, (-1 : Int))
    omega
  · apply overhead_loop_close sb g gdp n2 t1 t2 hstd hbpg hg hlast hitf hB2
    · rcases hp1 with rfl | ⟨hin1, rfl, hlt1, hltB1, heq1⟩
      · exact Or.inl rfl
      · exact Or.inr ⟨_, rfl, by omega, hltB1⟩
    · rcases hp2 with rfl | ⟨hin2, rfl, hlt2, hltB2, heq2⟩
      · exact Or.inl rfl
      · exact Or.inr ⟨_, rfl, by omega, hltB2⟩
    · intro h1 h2
      rcases hp1 with rfl | ⟨hin1, rfl, hlt1, hltB1, heq1⟩
      · exact absurd rfl h1
      · rcases hp2 with rfl | ⟨hin2, rfl, hlt2, hltB2, heq2⟩
        · exact absurd rfl h2
        · intro hq
          have hqq : EXT4_B2C sb (gdp.block_bitmap - ext4_group_first_block_no sb g)
              = EXT4_B2C sb (gdp.inode_bitmap - ext4_group_first_block_no sb g) := by
            exact_mod_cast hq
          exact hdist hin1 hin2 hqq

/-- Witness for the amended C7 on the well-formed descriptor `gdp3` of the
single group of `sb3`. -/
theorem c7_overhead_bounds_witness :
    ext4_num_base_meta_clusters sb3 0 ≤ ext4_num_overhead_clusters sb3 0 gdp3
    ∧ ext4_num_overhead_clusters sb3 0 gdp3 ≤ num_clusters_in_group sb3 0 :=
  c7_overhead_bounds sb3 0 gdp3 rfl (by decide) (by decide) (by decide)
    (by decide) (by decide) (by decide) (by decide) (fun _ _ => by decide)

end Balloc
